import Mathlib

/-
Shallow embedding of `keras2bert/models/electra.py`.

The repository builds an ELECTRA/BERT-style computation graph out of named
layer nodes (the layer implementations themselves are external) and then
binds pretrained weights from a checkpoint into the graph by string key.
We embed the graph builder as functions producing lists of named nodes,
and the weight binder as a small interpreter over a list of bind steps
(each step: look a layer up by name, fetch a fixed ordered list of
checkpoint keys, and assign the fetched tensors to the layer).

Python evaluation-order details that matter and are mirrored here:
  * `model.get_layer(name=...).set_weights([loader(k1), loader(k2), ...])`
    evaluates `get_layer` first (a missing layer raises before any key is
    read), then the `loader` calls left to right (the first missing key
    raises after the earlier keys were already read), then `set_weights`.
  * only the per-encoder-layer lookup (line 318-321) is wrapped in
    `try/except ValueError: continue`; every other `get_layer` call,
    including the one for `Embedding-Map`, is unguarded.
  * `set_weights` (Keras) rejects tensors whose shape differs from the
    layer's weight shape; we model the shapes this repository itself
    determines (the three embedding tables), leaving the shapes owned by
    the external layer library unchecked.
-/

/-- A checkpoint tensor: rank-1 (bias/scale vectors) or rank-2 (tables and
kernels, kept as a row list plus an explicit column count, mirroring a
rectangular numpy array). -/
inductive Tensor
  | vec (data : List Int)
  | mat (width : Nat) (rows : List (List Int))
deriving DecidableEq

/-- The numpy shape of a tensor. -/
def Tensor.shape : Tensor → List Nat
  | .vec d => [d.length]
  | .mat w rows => [rows.length, w]

/-- Row slicing `t[:n, :]`: keeps the first `n` rows of a rank-2 tensor;
on a rank-1 tensor the two-index slice is a numpy indexing error. -/
def Tensor.takeRows : Tensor → Nat → Option Tensor
  | .vec _, _ => none
  | .mat w rows, n => some (.mat w (rows.take n))

/-- Operation kinds of graph nodes (spec section 3, "LayerNode"). An input
node records the `shape=(seq_len,)` it was declared with. -/
inductive OpKind
  | input (seq_len : Option Nat)
  | tokenEmbedding
  | embedding
  | positionEmbedding
  | add
  | dense
  | layerNorm
  | dropout
  | attention
  | feedForward
deriving DecidableEq

/-- A named node of the computation graph: unique name, operation kind,
names of its input tensors, and its parameter-slot list. A slot is
`some shape` when this repository determines the weight's shape (the
embedding tables, via `input_dim`/`output_dim`) and `none` when the shape
is owned by the external layer library. -/
structure LayerNode where
  name : String
  op : OpKind
  inputs : List String
  slots : List (Option (List Nat))
deriving DecidableEq

/-- A Keras tensor argument: a single tensor or a list of tensors
(the self-attention block receives `[x, x, x]`). -/
inductive KTensor
  | single (t : String)
  | list (ts : List String)

/-- `_wrap_layer` (electra.py:5-27): build output → optional dropout →
residual `Add` (using `input_layer[0]` when the input is a list) →
layer normalization. Returns the output tensor name and the created nodes. -/
def wrap_layer (name : String) (input_layer : KTensor)
    (build_func : KTensor → String × List LayerNode)
    (dropout_rate : Rat) : String × List LayerNode :=
  let bo := build_func input_layer
  let withDrop := 0 < dropout_rate ∧ dropout_rate < 1
  let dropout_out := if withDrop then name ++ "-Dropout" else bo.1
  let res_input :=
    match input_layer with
    | .single t => t
    | .list ts => ts.headD ""
  (name ++ "-Norm",
    bo.2 ++ (if withDrop then [⟨name ++ "-Dropout", .dropout, [bo.1], []⟩] else []) ++
      [⟨name ++ "-Add", .add, [res_input, dropout_out], []⟩,
       ⟨name ++ "-Norm", .layerNorm, [name ++ "-Add"], [none, none]⟩])

/-- `_wrap_embedding` (electra.py:30-49): build output → layer
normalization → optional dropout. -/
def wrap_embedding (name : String) (input_layer : String)
    (build_func : String → String × List LayerNode)
    (dropout_rate : Rat) : String × List LayerNode :=
  let bo := build_func input_layer
  let withDrop := 0 < dropout_rate ∧ dropout_rate < 1
  ((if withDrop then name ++ "-Dropout" else name ++ "-Norm"),
    bo.2 ++ [⟨name ++ "-Norm", .layerNorm, [bo.1], [none, none]⟩] ++
      (if withDrop then [⟨name ++ "-Dropout", .dropout, [name ++ "-Norm"], []⟩] else []))

/-- `get_encoder_component` (electra.py:52-93): a self-attention wrapped
block (fed three copies of the input) followed by a feed-forward wrapped
block. The attention layer owns 8 parameter slots, the feed-forward layer 4. -/
def get_encoder_component (name : String) (input_layer : String)
    (head_num hidden_dim feed_forward_dim : Nat)
    (attention_dropout_rate hidden_dropout_rate : Rat) : String × List LayerNode :=
  let attention_name := name ++ "-MultiHeadSelfAttention"
  let feed_forward_name := name ++ "-FeedForward"
  let attn := wrap_layer attention_name (.list [input_layer, input_layer, input_layer])
    (fun inp =>
      (attention_name,
        [⟨attention_name, .attention,
          (match inp with | .single t => [t] | .list ts => ts),
          [none, none, none, none, none, none, none, none]⟩]))
    hidden_dropout_rate
  let ff := wrap_layer feed_forward_name (.single attn.1)
    (fun inp =>
      (feed_forward_name,
        [⟨feed_forward_name, .feedForward,
          (match inp with | .single t => [t] | .list ts => ts),
          [none, none, none, none]⟩]))
    hidden_dropout_rate
  (ff.1, attn.2 ++ ff.2)

/-- The encoder loop of `get_encoders` (electra.py:106-120), unrolled as a
recursion: layer `i`, then layers `i+1 .. i+k-1`, each feeding the next. -/
def encoders_from (head_num hidden_dim feed_forward_dim : Nat)
    (attention_dropout_rate hidden_dropout_rate : Rat) :
    Nat → Nat → String → String × List LayerNode
  | _, 0, last_layer => (last_layer, [])
  | i, k + 1, last_layer =>
    let c := get_encoder_component ("Encoder-" ++ toString i) last_layer head_num
      hidden_dim feed_forward_dim attention_dropout_rate hidden_dropout_rate
    let rest := encoders_from head_num hidden_dim feed_forward_dim
      attention_dropout_rate hidden_dropout_rate (i + 1) k c.1
    (rest.1, c.2 ++ rest.2)

/-- `get_encoders` (electra.py:96-120): chains `encoder_num` encoder
components named `Encoder-0`, `Encoder-1`, ... -/
def get_encoders (encoder_num : Nat) (input_layer : String)
    (head_num hidden_dim feed_forward_dim : Nat)
    (attention_dropout_rate hidden_dropout_rate : Rat) : String × List LayerNode :=
  encoders_from head_num hidden_dim feed_forward_dim attention_dropout_rate
    hidden_dropout_rate 0 encoder_num input_layer

/-- `get_inputs` (electra.py:123-132): the two input placeholders, each of
shape `(seq_len,)`. -/
def get_inputs (seq_len : Option Nat) : (String × String) × List LayerNode :=
  (("Input-Token", "Input-Segment"),
    [⟨"Input-Token", .input seq_len, [], []⟩,
     ⟨"Input-Segment", .input seq_len, [], []⟩])

/-- `get_embeddings` (electra.py:135-178): token + segment embeddings,
their sum, position embedding wrapped with norm and dropout, and an
`Embedding-Map` dense projection only when `embedding_dim ≠ hidden_dim`.
Returns ((output, raw token table), nodes). -/
def get_embeddings (inputs : String × String)
    (vocab_size segment_type_size embedding_dim hidden_dim max_pos_num : Nat)
    (embedding_dropout_rate : Rat) : (String × String) × List LayerNode :=
  let wrapped := wrap_embedding "Embedding" "Embedding-Add-Token-Segment"
    (fun inp =>
      ("Embedding-Position",
        [⟨"Embedding-Position", .positionEmbedding, [inp],
          [some [max_pos_num, embedding_dim]]⟩]))
    embedding_dropout_rate
  let base : List LayerNode :=
    ⟨"Embedding-Token", .tokenEmbedding, [inputs.1], [some [vocab_size, embedding_dim]]⟩ ::
    ⟨"Embedding-Segment", .embedding, [inputs.2], [some [segment_type_size, embedding_dim]]⟩ ::
    ⟨"Embedding-Add-Token-Segment", .add, ["Embedding-Token", "Embedding-Segment"], []⟩ ::
    wrapped.2
  ((if embedding_dim ≠ hidden_dim then "Embedding-Map" else wrapped.1, "Embedding-Token"),
    base ++ (if embedding_dim ≠ hidden_dim then
      [⟨"Embedding-Map", .dense, [wrapped.1], [none, none]⟩] else []))

/-- The assembled graph: the two input names, the final output name, and
all nodes. -/
structure BuiltGraph where
  inputs : String × String
  output : String
  nodes : List LayerNode
deriving DecidableEq

/-- `get_model` (electra.py:181-236): inputs → embeddings → encoder stack
→ optional discriminator head; the final output is the discriminator
prediction when present, else the encoder stack output. -/
def get_model (vocab_size segment_type_size max_pos_num : Nat) (seq_len : Option Nat)
    (embedding_dim hidden_dim transformer_num head_num feed_forward_dim : Nat)
    (attention_dropout_rate hidden_dropout_rate : Rat)
    (with_discriminator : Bool) : BuiltGraph :=
  let inp := get_inputs seq_len
  let emb := get_embeddings inp.1 vocab_size segment_type_size embedding_dim hidden_dim
    max_pos_num hidden_dropout_rate
  let enc := get_encoders transformer_num emb.1.1 head_num hidden_dim feed_forward_dim
    attention_dropout_rate hidden_dropout_rate
  let discNodes : List LayerNode :=
    if with_discriminator then
      [⟨"Discriminator-Dense", .dense, [enc.1], [none, none]⟩,
       ⟨"Discriminator-Prediction", .dense, ["Discriminator-Dense"], [none, none]⟩]
    else []
  ⟨inp.1, (if with_discriminator then "Discriminator-Prediction" else enc.1),
    inp.2 ++ emb.2 ++ enc.2 ++ discNodes⟩

/-- The hyperparameter record read from the JSON config file
(electra.py:251-274). `embedding_size` is optional and defaults to
`hidden_size`. -/
structure ElectraConfig where
  vocab_size : Nat
  type_vocab_size : Nat
  max_position_embeddings : Nat
  hidden_size : Nat
  embedding_size : Option Nat
  num_hidden_layers : Nat
  num_attention_heads : Nat
  intermediate_size : Nat
  hidden_act : String
  attention_probs_dropout_prob : Rat
  hidden_dropout_prob : Rat
deriving DecidableEq

/-- A checkpoint accessor: fully qualified tensor path → tensor, or
absent. -/
def Checkpoint := String → Option Tensor

/-- `model.get_layer(name=...)`: the first node with the given name, or a
lookup failure (Keras raises `ValueError`). -/
def findNode : List LayerNode → String → Option LayerNode
  | [], _ => none
  | nd :: rest, name => if nd.name = name then some nd else findNode rest name

/-- One `get_layer(...).set_weights([loader(k), ...])` call: the layer
name and the ordered keys to fetch, each with an optional row-slice bound
(`some n` models `loader(k)[:n, :]`). -/
structure BindStep where
  layer : String
  fetches : List (String × Option Nat)
deriving DecidableEq

/-- An item of the binding procedure: a plain step, or a group of steps
guarded by a `try: get_layer(guard) except ValueError: continue`. -/
inductive BindItem
  | step (s : BindStep)
  | guarded (guard : String) (steps : List BindStep)
deriving DecidableEq

/-- Binding failures: a `get_layer` miss (ValueError), a missing
checkpoint key (the loader's not-found error), a numpy slice on a rank-1
tensor, or a `set_weights` shape mismatch. -/
inductive BindError
  | missingLayer (name : String)
  | missingKey (key : String)
  | badSlice (key : String)
  | badShape (layer : String)
deriving DecidableEq

/-- Apply the optional row-slice of a fetch. -/
def applySlice (t : Tensor) : Option Nat → Option Tensor
  | none => some t
  | some n => t.takeRows n

/-- Evaluate the loader calls of one step left to right. Returns the keys
actually read (in order, including a final missing one) and either the
fetched tensors or the first error. -/
def fetchList (ckpt : Checkpoint) : List (String × Option Nat) →
    List String × Except BindError (List Tensor)
  | [] => ([], .ok [])
  | f :: rest =>
    match ckpt f.1 with
    | none => ([f.1], .error (.missingKey f.1))
    | some t =>
      match applySlice t f.2 with
      | none => ([f.1], .error (.badSlice f.1))
      | some t' =>
        let r := fetchList ckpt rest
        (f.1 :: r.1, r.2.map (fun ts => t' :: ts))

/-- The `set_weights` compatibility check: one tensor per slot, and a
tensor's shape must match every slot shape this repository determines. -/
def shapesOk : List (Option (List Nat)) → List Tensor → Bool
  | [], [] => true
  | none :: slots, _ :: ts => shapesOk slots ts
  | some sh :: slots, t :: ts => (t.shape == sh) && shapesOk slots ts
  | _, _ => false

/-- Parameter state of the graph: newest assignment first. -/
def ParamState := List (String × List Tensor)

/-- Assign a layer's weights (Keras `set_weights` replaces the values). -/
def setParam (name : String) (ts : List Tensor) (p : ParamState) : ParamState :=
  (name, ts) :: p

/-- The current weights of a layer, `none` if never assigned. -/
def getParam (name : String) (p : ParamState) : Option (List Tensor) :=
  (List.find? (fun e => e.1 == name) p).map (fun e => e.2)

/-- Binder state: the graph's parameter state plus the log of checkpoint
keys read so far. -/
structure BState where
  params : ParamState
  queried : List String

/-- Execute one bind step, in Python evaluation order: `get_layer` first
(no key is read when the layer is missing), then the loaders, then
`set_weights`. -/
def runStep (g : List LayerNode) (ckpt : Checkpoint) (st : BindStep) (s : BState) :
    BState × Option BindError :=
  match findNode g st.layer with
  | none => (s, some (.missingLayer st.layer))
  | some nd =>
    let f := fetchList ckpt st.fetches
    match f.2 with
    | .error e => (⟨s.params, s.queried ++ f.1⟩, some e)
    | .ok ts =>
      if shapesOk nd.slots ts then
        (⟨setParam st.layer ts s.params, s.queried ++ f.1⟩, none)
      else (⟨s.params, s.queried ++ f.1⟩, some (.badShape st.layer))

/-- Execute a list of steps sequentially, aborting on the first error. -/
def runSteps (g : List LayerNode) (ckpt : Checkpoint) :
    List BindStep → BState → BState × Option BindError
  | [], s => (s, none)
  | st :: rest, s =>
    match runStep g ckpt st s with
    | (s', none) => runSteps g ckpt rest s'
    | (s', some e) => (s', some e)

/-- Execute the binding procedure: plain steps abort on error; a guarded
group is skipped entirely (continue) when its guard layer is absent. -/
def runItems (g : List LayerNode) (ckpt : Checkpoint) :
    List BindItem → BState → BState × Option BindError
  | [], s => (s, none)
  | .step st :: rest, s =>
    match runStep g ckpt st s with
    | (s', none) => runItems g ckpt rest s'
    | (s', some e) => (s', some e)
  | .guarded guard steps :: rest, s =>
    match findNode g guard with
    | none => runItems g ckpt rest s
    | some _ =>
      match runSteps g ckpt steps s with
      | (s', none) => runItems g ckpt rest s'
      | (s', some e) => (s', some e)

/-- `'bert/encoder/layer_%d/...' % i` (electra.py:323-344). -/
def layerKey (i : Nat) (suffix : String) : String :=
  "bert/encoder/layer_" ++ (toString i ++ suffix)

/-- `'Encoder-%d-MultiHeadSelfAttention' % i` (electra.py:319). -/
def attnLayerName (i : Nat) : String :=
  "Encoder-" ++ (toString i ++ "-MultiHeadSelfAttention")

/-- `'Encoder-%d-FeedForward' % i` (electra.py:336). -/
def ffLayerName (i : Nat) : String :=
  "Encoder-" ++ (toString i ++ "-FeedForward")

/-- Attention binding (electra.py:322-331): eight tensors in fixed order. -/
def mkAttnStep (i : Nat) : BindStep :=
  ⟨attnLayerName i,
   [(layerKey i "/attention/self/query/kernel", none),
    (layerKey i "/attention/self/query/bias", none),
    (layerKey i "/attention/self/key/kernel", none),
    (layerKey i "/attention/self/key/bias", none),
    (layerKey i "/attention/self/value/kernel", none),
    (layerKey i "/attention/self/value/bias", none),
    (layerKey i "/attention/output/dense/kernel", none),
    (layerKey i "/attention/output/dense/bias", none)]⟩

/-- Attention-norm binding (electra.py:332-335). -/
def mkAttnNormStep (i : Nat) : BindStep :=
  ⟨attnLayerName i ++ "-Norm",
   [(layerKey i "/attention/output/LayerNorm/gamma", none),
    (layerKey i "/attention/output/LayerNorm/beta", none)]⟩

/-- Feed-forward binding (electra.py:336-341). -/
def mkFFStep (i : Nat) : BindStep :=
  ⟨ffLayerName i,
   [(layerKey i "/intermediate/dense/kernel", none),
    (layerKey i "/intermediate/dense/bias", none),
    (layerKey i "/output/dense/kernel", none),
    (layerKey i "/output/dense/bias", none)]⟩

/-- Feed-forward-norm binding (electra.py:342-345). -/
def mkFFNormStep (i : Nat) : BindStep :=
  ⟨ffLayerName i ++ "-Norm",
   [(layerKey i "/output/LayerNorm/gamma", none),
    (layerKey i "/output/LayerNorm/beta", none)]⟩

/-- One iteration of the encoder loop (electra.py:317-345), guarded by the
lookup of the layer's attention node. -/
def mkLayerGroup (i : Nat) : BindItem :=
  .guarded (attnLayerName i) [mkAttnStep i, mkAttnNormStep i, mkFFStep i, mkFFNormStep i]

/-- Discriminator-head binding (electra.py:347-355). -/
def discSteps : List BindItem :=
  [.step ⟨"Discriminator-Dense",
     [("discriminator_predictions/dense/kernel", none),
      ("discriminator_predictions/dense/bias", none)]⟩,
   .step ⟨"Discriminator-Prediction",
     [("discriminator_predictions/dense_1/kernel", none),
      ("discriminator_predictions/dense_1/bias", none)]⟩]

/-- Embedding binding (electra.py:300-316), including the unconditional
`Embedding-Map` step; the position-embedding table is sliced to the first
`maxPos` rows. -/
def embeddingSteps (maxPos : Nat) : List BindItem :=
  [.step ⟨"Embedding-Token", [("bert/embeddings/word_embeddings", none)]⟩,
   .step ⟨"Embedding-Segment", [("bert/embeddings/token_type_embeddings", none)]⟩,
   .step ⟨"Embedding-Position", [("bert/embeddings/position_embeddings", some maxPos)]⟩,
   .step ⟨"Embedding-Norm",
     [("bert/embeddings/LayerNorm/gamma", none), ("bert/embeddings/LayerNorm/beta", none)]⟩,
   .step ⟨"Embedding-Map",
     [("electra/embeddings_project/kernel", none), ("electra/embeddings_project/bias", none)]⟩]

/-- The full binding procedure in source order. -/
def bindProgram (maxPos numLayers : Nat) (withDisc : Bool) : List BindItem :=
  embeddingSteps maxPos ++ (List.range numLayers).map mkLayerGroup ++
    (if withDisc then discSteps else [])

/-- `load_model_weights_from_checkpoint` (electra.py:292-355). -/
def load_model_weights_from_checkpoint (g : List LayerNode) (config : ElectraConfig)
    (ckpt : Checkpoint) (with_discriminator : Bool) (s : BState) :
    BState × Option BindError :=
  runItems g ckpt
    (bindProgram config.max_position_embeddings config.num_hidden_layers with_discriminator) s

/-- The result of `build_electra_model`: the effective config (after the
`seq_len` clamp), the graph, and the binding outcome. -/
structure BuiltElectra where
  config_eff : ElectraConfig
  graph : BuiltGraph
  bind : BState × Option BindError

/-- `build_electra_model` (electra.py:239-283): clamps
`max_position_embeddings` to `min seq_len _` when `seq_len` is given,
builds the model with `seq_len=None` (dynamic-length inputs), then binds
the checkpoint. -/
def build_electra_model (config : ElectraConfig) (ckpt : Checkpoint)
    (seq_len : Option Nat) (with_discriminator : Bool) : BuiltElectra :=
  let cfg := match seq_len with
    | some n => { config with max_position_embeddings := min n config.max_position_embeddings }
    | none => config
  let g := get_model cfg.vocab_size cfg.type_vocab_size cfg.max_position_embeddings none
    (cfg.embedding_size.getD cfg.hidden_size) cfg.hidden_size cfg.num_hidden_layers
    cfg.num_attention_heads cfg.intermediate_size cfg.attention_probs_dropout_prob
    cfg.hidden_dropout_prob with_discriminator
  ⟨cfg, g, load_model_weights_from_checkpoint g.nodes cfg ckpt with_discriminator ⟨[], []⟩⟩

/-
Infrastructure lemmas: strings, node lookup, and the run of the binder.
-/

theorem data_append (a b : String) : (a ++ b).data = a.data ++ b.data := by
  cases a; cases b; rfl

theorem str_eq_of_data {a b : String} (h : a.data = b.data) : a = b := by
  cases a; cases b; exact congrArg String.mk h

theorem str_append_assoc (a b c : String) : (a ++ b) ++ c = a ++ (b ++ c) := by
  apply str_eq_of_data
  simp [data_append]

theorem append_ne_of_not_pre {a b : String} (h : ¬ (a.data <+: b.data)) (r : String) :
    a ++ r ≠ b := by
  intro he
  exact h ⟨r.data, by rw [← data_append, he]⟩

theorem str_append_right_ne (a : String) {s t : String} (h : s ≠ t) :
    a ++ s ≠ a ++ t := by
  intro he
  apply h
  apply str_eq_of_data
  have hd := congrArg String.data he
  rw [data_append, data_append] at hd
  exact List.append_cancel_left hd

theorem findNode_eq_none (g : List LayerNode) (name : String)
    (h : ∀ nd ∈ g, nd.name ≠ name) : findNode g name = none := by
  induction g with
  | nil => rfl
  | cons nd rest ih =>
    rw [findNode, if_neg (h nd (List.mem_cons_self nd rest))]
    exact ih (fun x hx => h x (List.mem_cons_of_mem nd hx))

theorem findNode_isSome_iff (g : List LayerNode) (name : String) :
    (findNode g name).isSome ↔ ∃ nd ∈ g, nd.name = name := by
  induction g with
  | nil => simp [findNode]
  | cons nd rest ih =>
    rw [findNode]
    by_cases h : nd.name = name
    · simp [h]
    · simp only [if_neg h, ih, List.mem_cons]
      constructor
      · rintro ⟨x, hx, hn⟩
        exact ⟨x, Or.inr hx, hn⟩
      · rintro ⟨x, hx | hx, hn⟩
        · exact absurd (hx ▸ hn) h
        · exact ⟨x, hx, hn⟩

theorem runItems_append (g : List LayerNode) (ckpt : Checkpoint)
    (A B : List BindItem) (s : BState) :
    runItems g ckpt (A ++ B) s =
      match runItems g ckpt A s with
      | (s', none) => runItems g ckpt B s'
      | (s', some e) => (s', some e) := by
  induction A generalizing s with
  | nil => simp [runItems]
  | cons it rest ih =>
    cases it with
    | step st =>
      rw [List.cons_append, runItems, runItems]
      rcases runStep g ckpt st s with ⟨s', e⟩
      cases e with
      | none => exact ih s'
      | some e => rfl
    | guarded guard steps =>
      rw [List.cons_append, runItems, runItems]
      cases findNode g guard with
      | none => exact ih s
      | some nd =>
        rcases runSteps g ckpt steps s with ⟨s', e⟩
        cases e with
        | none => exact ih s'
        | some e => rfl

/-- The keys a step's loader calls read when they all succeed. -/
def stepKeys (st : BindStep) : List String :=
  st.fetches.map (fun f => f.1)

/-- All keys an item can read. -/
def itemKeys : BindItem → List String
  | .step st => stepKeys st
  | .guarded _ steps => (steps.map stepKeys).flatten

/-- All keys a binding procedure can read. -/
def itemsKeys (items : List BindItem) : List String :=
  (items.map itemKeys).flatten

theorem fetchList_queried_sub (ckpt : Checkpoint) (fs : List (String × Option Nat)) :
    ∀ k ∈ (fetchList ckpt fs).1, k ∈ fs.map (fun f => f.1) := by
  induction fs with
  | nil => simp [fetchList]
  | cons f rest ih =>
    intro k hk
    rcases hc : ckpt f.1 with _ | t
    · simp only [fetchList, hc] at hk
      simp only [List.mem_singleton] at hk
      simp [hk]
    · rcases hs : applySlice t f.2 with _ | t2
      · simp only [fetchList, hc, hs] at hk
        simp only [List.mem_singleton] at hk
        simp [hk]
      · simp only [fetchList, hc, hs, List.mem_cons] at hk
        rcases hk with hk | hk
        · simp [hk]
        · simp only [List.map_cons, List.mem_cons]
          exact Or.inr (ih k hk)

theorem fetchList_ok_queried (ckpt : Checkpoint) (fs : List (String × Option Nat))
    (ts : List Tensor) (h : (fetchList ckpt fs).2 = .ok ts) :
    (fetchList ckpt fs).1 = fs.map (fun f => f.1) := by
  induction fs generalizing ts with
  | nil => rfl
  | cons f rest ih =>
    rcases hc : ckpt f.1 with _ | t
    · simp only [fetchList, hc] at h
      exact absurd h (by simp)
    · rcases hs : applySlice t f.2 with _ | t2
      · simp only [fetchList, hc, hs] at h
        exact absurd h (by simp)
      · simp only [fetchList, hc, hs] at h ⊢
        simp only [List.map_cons, List.cons.injEq, true_and]
        rcases hr : (fetchList ckpt rest).2 with e | ts2
        · rw [hr] at h
          exact absurd h (by simp [Except.map])
        · exact ih ts2 hr

theorem fetchList_ok_maps (ckpt : Checkpoint) (fs : List (String × Option Nat))
    (ts : List Tensor) (hall : ∀ f ∈ fs, f.2 = none)
    (h : (fetchList ckpt fs).2 = .ok ts) :
    fs.map (fun f => ckpt f.1) = ts.map some := by
  induction fs generalizing ts with
  | nil =>
    rw [fetchList] at h
    cases ts with
    | nil => rfl
    | cons t ts => exact absurd h (by simp)
  | cons f rest ih =>
    rcases hc : ckpt f.1 with _ | t
    · simp only [fetchList, hc] at h
      exact absurd h (by simp)
    · have hf2 : f.2 = none := hall f (List.mem_cons_self f rest)
      simp only [fetchList, hc, hf2, applySlice] at h
      rcases hr : (fetchList ckpt rest).2 with e | ts2
      · rw [hr] at h
        exact absurd h (by simp [Except.map])
      · rw [hr] at h
        simp only [Except.map] at h
        have hts : ts = t :: ts2 := by cases h; rfl
        subst hts
        simp only [List.map_cons, hc, List.cons.injEq, true_and]
        exact ih ts2 (fun x hx => hall x (List.mem_cons_of_mem f hx)) hr

theorem getParam_setParam_eq (name : String) (ts : List Tensor) (p : ParamState) :
    getParam name (setParam name ts p) = some ts := by
  rw [getParam, setParam, List.find?_cons_of_pos _ (by simp)]
  rfl

theorem getParam_setParam_ne (name k : String) (ts : List Tensor) (p : ParamState)
    (h : name ≠ k) : getParam k (setParam name ts p) = getParam k p := by
  rw [getParam, setParam, List.find?_cons_of_neg _ (by simp [h]), getParam]

/-- The layer names a list of steps assigns to. -/
def stepsNames (ss : List BindStep) : List String :=
  ss.map (fun st => st.layer)

/-- The layer names an item can assign to. -/
def itemNames : BindItem → List String
  | .step st => [st.layer]
  | .guarded _ steps => stepsNames steps

/-- The layer names a binding procedure can assign to. -/
def itemsNames (items : List BindItem) : List String :=
  (items.map itemNames).flatten

theorem getParam_runStep_ne (g : List LayerNode) (ckpt : Checkpoint) (st : BindStep)
    (s : BState) (k : String) (h : st.layer ≠ k) :
    getParam k (runStep g ckpt st s).1.params = getParam k s.params := by
  rcases hn : findNode g st.layer with _ | nd
  · simp only [runStep, hn]
  · simp only [runStep, hn]
    rcases hf : (fetchList ckpt st.fetches).2 with e | ts
    · rfl
    · cases hs : shapesOk nd.slots ts with
      | true =>
        simp only [hs, if_true]
        exact getParam_setParam_ne _ _ _ _ h
      | false => simp [hs]

theorem getParam_runSteps_ne (g : List LayerNode) (ckpt : Checkpoint)
    (ss : List BindStep) (s : BState) (k : String)
    (h : ∀ n ∈ stepsNames ss, n ≠ k) :
    getParam k (runSteps g ckpt ss s).1.params = getParam k s.params := by
  induction ss generalizing s with
  | nil => rfl
  | cons st rest ih =>
    have hst : st.layer ≠ k := h st.layer (by simp [stepsNames])
    have hrest : ∀ n ∈ stepsNames rest, n ≠ k := by
      intro n hn
      exact h n (by simp only [stepsNames, List.map_cons, List.mem_cons]; exact Or.inr hn)
    rw [runSteps]
    rcases hr : runStep g ckpt st s with ⟨s', e⟩
    have hs' : getParam k s'.params = getParam k s.params := by
      have := getParam_runStep_ne g ckpt st s k hst
      rw [hr] at this
      exact this
    cases e with
    | none => rw [ih s' hrest, hs']
    | some e => exact hs'

theorem getParam_runItems_ne (g : List LayerNode) (ckpt : Checkpoint)
    (items : List BindItem) (s : BState) (k : String)
    (h : ∀ n ∈ itemsNames items, n ≠ k) :
    getParam k (runItems g ckpt items s).1.params = getParam k s.params := by
  induction items generalizing s with
  | nil => rfl
  | cons it rest ih =>
    have hrest : ∀ n ∈ itemsNames rest, n ≠ k := by
      intro n hn
      apply h n
      simp only [itemsNames, List.map_cons, List.flatten_cons, List.mem_append]
      exact Or.inr hn
    have hit : ∀ n ∈ itemNames it, n ≠ k := by
      intro n hn
      apply h n
      simp only [itemsNames, List.map_cons, List.flatten_cons, List.mem_append]
      exact Or.inl hn
    cases it with
    | step st =>
      have hst : st.layer ≠ k := hit st.layer (by simp [itemNames])
      rw [runItems]
      rcases hr : runStep g ckpt st s with ⟨s', e⟩
      have hs' : getParam k s'.params = getParam k s.params := by
        have := getParam_runStep_ne g ckpt st s k hst
        rw [hr] at this
        exact this
      cases e with
      | none => rw [ih s' hrest, hs']
      | some e => exact hs'
    | guarded guard steps =>
      rw [runItems]
      rcases hn : findNode g guard with _ | nd
      · exact ih s hrest
      · rcases hr : runSteps g ckpt steps s with ⟨s', e⟩
        have hs' : getParam k s'.params = getParam k s.params := by
          have := getParam_runSteps_ne g ckpt steps s k hit
          rw [hr] at this
          exact this
        cases e with
        | none => rw [ih s' hrest, hs']
        | some e => exact hs'

theorem runStep_queried_eq (g : List LayerNode) (ckpt : Checkpoint) (st : BindStep)
    (s : BState) :
    (runStep g ckpt st s).1.queried = s.queried ∨
    (runStep g ckpt st s).1.queried = s.queried ++ (fetchList ckpt st.fetches).1 := by
  simp only [runStep]
  cases hn : findNode g st.layer with
  | none => exact Or.inl rfl
  | some nd =>
    cases hf : (fetchList ckpt st.fetches).2 with
    | error e => exact Or.inr rfl
    | ok ts =>
      by_cases hs : shapesOk nd.slots ts = true
      · simp [hs]
      · simp [hs]

theorem runStep_queried_sub (g : List LayerNode) (ckpt : Checkpoint) (st : BindStep)
    (s : BState) : ∀ k ∈ (runStep g ckpt st s).1.queried, k ∈ s.queried ∨ k ∈ stepKeys st := by
  intro k hk
  rcases runStep_queried_eq g ckpt st s with he | he
  · rw [he] at hk
    exact Or.inl hk
  · rw [he] at hk
    rcases List.mem_append.mp hk with hk2 | hk2
    · exact Or.inl hk2
    · exact Or.inr (fetchList_queried_sub ckpt st.fetches k hk2)

/-- The keys a list of steps can read. -/
def stepsKeys (ss : List BindStep) : List String :=
  (ss.map stepKeys).flatten

theorem runSteps_queried_sub (g : List LayerNode) (ckpt : Checkpoint)
    (ss : List BindStep) (s : BState) :
    ∀ k ∈ (runSteps g ckpt ss s).1.queried, k ∈ s.queried ∨ k ∈ stepsKeys ss := by
  induction ss generalizing s with
  | nil => intro k hk; exact Or.inl hk
  | cons st rest ih =>
    intro k hk
    rw [runSteps] at hk
    rcases hr : runStep g ckpt st s with ⟨s', e⟩
    have hstep : ∀ x ∈ s'.queried, x ∈ s.queried ∨ x ∈ stepKeys st := by
      intro x hx
      have := runStep_queried_sub g ckpt st s x
      rw [hr] at this
      exact this hx
    have hmem : k ∈ stepKeys st ∨ k ∈ s.queried ∨ k ∈ stepsKeys rest := by
      cases e with
      | none =>
        rw [hr] at hk
        rcases ih s' k hk with hk2 | hk2
        · rcases hstep k hk2 with hk3 | hk3
          · exact Or.inr (Or.inl hk3)
          · exact Or.inl hk3
        · exact Or.inr (Or.inr hk2)
      | some e =>
        rw [hr] at hk
        rcases hstep k hk with hk2 | hk2
        · exact Or.inr (Or.inl hk2)
        · exact Or.inl hk2
    rcases hmem with hm | hm | hm
    · exact Or.inr (by simp only [stepsKeys, List.map_cons, List.flatten_cons, List.mem_append]; exact Or.inl hm)
    · exact Or.inl hm
    · exact Or.inr (by simp only [stepsKeys, List.map_cons, List.flatten_cons, List.mem_append]; exact Or.inr hm)

theorem runItems_queried_sub (g : List LayerNode) (ckpt : Checkpoint)
    (items : List BindItem) (s : BState) :
    ∀ k ∈ (runItems g ckpt items s).1.queried, k ∈ s.queried ∨ k ∈ itemsKeys items := by
  induction items generalizing s with
  | nil => intro k hk; exact Or.inl hk
  | cons it rest ih =>
    intro k hk
    have hsplit : k ∈ itemKeys it ∨ k ∈ s.queried ∨ k ∈ itemsKeys rest := by
      cases it with
      | step st =>
        rw [runItems] at hk
        rcases hr : runStep g ckpt st s with ⟨s', e⟩
        have hstep : ∀ x ∈ s'.queried, x ∈ s.queried ∨ x ∈ stepKeys st := by
          intro x hx
          have := runStep_queried_sub g ckpt st s x
          rw [hr] at this
          exact this hx
        cases e with
        | none =>
          rw [hr] at hk
          rcases ih s' k hk with hk2 | hk2
          · rcases hstep k hk2 with hk3 | hk3
            · exact Or.inr (Or.inl hk3)
            · exact Or.inl hk3
          · exact Or.inr (Or.inr hk2)
        | some e =>
          rw [hr] at hk
          rcases hstep k hk with hk2 | hk2
          · exact Or.inr (Or.inl hk2)
          · exact Or.inl hk2
      | guarded guard steps =>
        rw [runItems] at hk
        rcases hn : findNode g guard with _ | nd
        · rw [hn] at hk
          rcases ih s k hk with hk2 | hk2
          · exact Or.inr (Or.inl hk2)
          · exact Or.inr (Or.inr hk2)
        · rw [hn] at hk
          rcases hr : runSteps g ckpt steps s with ⟨s', e⟩
          have hstep : ∀ x ∈ s'.queried, x ∈ s.queried ∨ x ∈ stepsKeys steps := by
            intro x hx
            have := runSteps_queried_sub g ckpt steps s x
            rw [hr] at this
            exact this hx
          cases e with
          | none =>
            rw [hr] at hk
            rcases ih s' k hk with hk2 | hk2
            · rcases hstep k hk2 with hk3 | hk3
              · exact Or.inr (Or.inl hk3)
              · exact Or.inl hk3
            · exact Or.inr (Or.inr hk2)
          | some e =>
            rw [hr] at hk
            rcases hstep k hk with hk2 | hk2
            · exact Or.inr (Or.inl hk2)
            · exact Or.inl hk2
    rcases hsplit with hm | hm | hm
    · exact Or.inr (by simp only [itemsKeys, List.map_cons, List.flatten_cons, List.mem_append]; exact Or.inl hm)
    · exact Or.inl hm
    · exact Or.inr (by simp only [itemsKeys, List.map_cons, List.flatten_cons, List.mem_append]; exact Or.inr hm)

theorem runStep_ok (g : List LayerNode) (ckpt : Checkpoint) (st : BindStep)
    (s s' : BState) (h : runStep g ckpt st s = (s', none)) :
    ∃ nd ts, findNode g st.layer = some nd ∧ (fetchList ckpt st.fetches).2 = .ok ts ∧
      shapesOk nd.slots ts = true ∧
      s'.params = setParam st.layer ts s.params ∧
      s'.queried = s.queried ++ st.fetches.map (fun f => f.1) := by
  simp only [runStep] at h
  split at h
  · exact absurd (congrArg Prod.snd h) (by simp)
  · rename_i nd hn
    split at h
    · exact absurd (congrArg Prod.snd h) (by simp)
    · rename_i ts hf
      split at h
      · rename_i hs
        refine ⟨nd, ts, hn, hf, hs, ?_, ?_⟩
        · exact congrArg (fun x => x.1.params) h.symm
        · rw [← fetchList_ok_queried ckpt st.fetches ts hf]
          exact congrArg (fun x => x.1.queried) h.symm
      · exact absurd (congrArg Prod.snd h) (by simp)

/-- Apply a list of assignments in order. -/
def applyAssigns (A : List (String × List Tensor)) (p : ParamState) : ParamState :=
  A.foldl (fun acc a => setParam a.1 a.2 acc) p

/-- The effect of one step, independently of the current parameter state:
the assignments it performs, the keys it reads, and its error. -/
def stepTrace (g : List LayerNode) (ckpt : Checkpoint) (st : BindStep) :
    List (String × List Tensor) × List String × Option BindError :=
  match findNode g st.layer with
  | none => ([], [], some (.missingLayer st.layer))
  | some nd =>
    match (fetchList ckpt st.fetches).2 with
    | .error e => ([], (fetchList ckpt st.fetches).1, some e)
    | .ok ts =>
      if shapesOk nd.slots ts then ([(st.layer, ts)], (fetchList ckpt st.fetches).1, none)
      else ([], (fetchList ckpt st.fetches).1, some (.badShape st.layer))

theorem runStep_char (g : List LayerNode) (ckpt : Checkpoint) (st : BindStep) (s : BState) :
    runStep g ckpt st s =
      (⟨applyAssigns (stepTrace g ckpt st).1 s.params,
        s.queried ++ (stepTrace g ckpt st).2.1⟩,
       (stepTrace g ckpt st).2.2) := by
  simp only [runStep, stepTrace]
  cases hn : findNode g st.layer with
  | none => simp [applyAssigns]
  | some nd =>
    cases hf : (fetchList ckpt st.fetches).2 with
    | error e => simp [applyAssigns]
    | ok ts =>
      cases hs : shapesOk nd.slots ts with
      | true => simp [applyAssigns, hs, setParam]
      | false => simp [applyAssigns, hs]

/-- The combined effect of a list of steps, aborting at the first error. -/
def stepsTrace (g : List LayerNode) (ckpt : Checkpoint) :
    List BindStep → List (String × List Tensor) × List String × Option BindError
  | [] => ([], [], none)
  | st :: rest =>
    let t := stepTrace g ckpt st
    match t.2.2 with
    | none =>
      let r := stepsTrace g ckpt rest
      (t.1 ++ r.1, t.2.1 ++ r.2.1, r.2.2)
    | some e => (t.1, t.2.1, some e)

theorem runSteps_char (g : List LayerNode) (ckpt : Checkpoint) (ss : List BindStep)
    (s : BState) :
    runSteps g ckpt ss s =
      (⟨applyAssigns (stepsTrace g ckpt ss).1 s.params,
        s.queried ++ (stepsTrace g ckpt ss).2.1⟩,
       (stepsTrace g ckpt ss).2.2) := by
  induction ss generalizing s with
  | nil => simp [runSteps, stepsTrace, applyAssigns]
  | cons st rest ih =>
    rw [runSteps, runStep_char]
    cases ht : (stepTrace g ckpt st).2.2 with
    | none =>
      simp only [stepsTrace, ht]
      rw [ih]
      simp [applyAssigns, List.foldl_append, List.append_assoc]
    | some e => simp only [stepsTrace, ht]

/-- The combined effect of the binding procedure. -/
def itemsTrace (g : List LayerNode) (ckpt : Checkpoint) :
    List BindItem → List (String × List Tensor) × List String × Option BindError
  | [] => ([], [], none)
  | .step st :: rest =>
    let t := stepTrace g ckpt st
    match t.2.2 with
    | none =>
      let r := itemsTrace g ckpt rest
      (t.1 ++ r.1, t.2.1 ++ r.2.1, r.2.2)
    | some e => (t.1, t.2.1, some e)
  | .guarded guard steps :: rest =>
    match findNode g guard with
    | none => itemsTrace g ckpt rest
    | some _ =>
      let t := stepsTrace g ckpt steps
      match t.2.2 with
      | none =>
        let r := itemsTrace g ckpt rest
        (t.1 ++ r.1, t.2.1 ++ r.2.1, r.2.2)
      | some e => (t.1, t.2.1, some e)

theorem runItems_char (g : List LayerNode) (ckpt : Checkpoint) (items : List BindItem)
    (s : BState) :
    runItems g ckpt items s =
      (⟨applyAssigns (itemsTrace g ckpt items).1 s.params,
        s.queried ++ (itemsTrace g ckpt items).2.1⟩,
       (itemsTrace g ckpt items).2.2) := by
  induction items generalizing s with
  | nil => simp [runItems, itemsTrace, applyAssigns]
  | cons it rest ih =>
    cases it with
    | step st =>
      rw [runItems, runStep_char]
      cases ht : (stepTrace g ckpt st).2.2 with
      | none =>
        simp only [itemsTrace, ht]
        rw [ih]
        simp [applyAssigns, List.foldl_append, List.append_assoc]
      | some e => simp only [itemsTrace, ht]
    | guarded guard steps =>
      rw [runItems]
      cases hn : findNode g guard with
      | none =>
        simp only [itemsTrace, hn]
        exact ih s
      | some nd =>
        rw [runSteps_char]
        cases ht : (stepsTrace g ckpt steps).2.2 with
        | none =>
          simp only [itemsTrace, hn, ht]
          rw [ih]
          simp [applyAssigns, List.foldl_append, List.append_assoc]
        | some e => simp only [itemsTrace, hn, ht]

/-- The last assignment a list of assignments makes to a key. -/
def lastAssign (A : List (String × List Tensor)) (k : String) : Option (List Tensor) :=
  A.foldl (fun acc a => if a.1 = k then some a.2 else acc) none

theorem foldl_lastAssign (A : List (String × List Tensor)) (k : String)
    (init : Option (List Tensor)) :
    A.foldl (fun acc a => if a.1 = k then some a.2 else acc) init =
      match lastAssign A k with
      | some ts => some ts
      | none => init := by
  induction A generalizing init with
  | nil => rfl
  | cons a A ih =>
    rw [List.foldl_cons, ih]
    have hR : lastAssign (a :: A) k =
        match lastAssign A k with
        | some ts => some ts
        | none => if a.1 = k then some a.2 else none := by
      rw [lastAssign, List.foldl_cons]
      exact ih (if a.1 = k then some a.2 else none)
    rw [hR]
    cases lastAssign A k with
    | some ts => rfl
    | none =>
      by_cases ha : a.1 = k
      · simp only [if_pos ha]
      · simp only [if_neg ha]

theorem getParam_applyAssigns (A : List (String × List Tensor)) (p : ParamState)
    (k : String) :
    getParam k (applyAssigns A p) =
      match lastAssign A k with
      | some ts => some ts
      | none => getParam k p := by
  induction A generalizing p with
  | nil => rfl
  | cons a A ih =>
    rw [applyAssigns, List.foldl_cons]
    have h1 : A.foldl (fun acc x => setParam x.1 x.2 acc) (setParam a.1 a.2 p) =
        applyAssigns A (setParam a.1 a.2 p) := rfl
    rw [h1, ih]
    have hR : lastAssign (a :: A) k =
        match lastAssign A k with
        | some ts => some ts
        | none => if a.1 = k then some a.2 else none := by
      rw [lastAssign, List.foldl_cons]
      exact foldl_lastAssign A k _
    rw [hR]
    cases lastAssign A k with
    | some ts => rfl
    | none =>
      by_cases ha : a.1 = k
      · simp only [if_pos ha]
        rw [ha, getParam_setParam_eq]
      · simp only [if_neg ha]
        rw [getParam_setParam_ne _ _ _ _ ha]

theorem applyAssigns_twice (A : List (String × List Tensor)) (p : ParamState)
    (k : String) :
    getParam k (applyAssigns A (applyAssigns A p)) = getParam k (applyAssigns A p) := by
  cases h : lastAssign A k with
  | some ts => simp [getParam_applyAssigns, h]
  | none => simp [getParam_applyAssigns, h]

theorem str_append_empty (a : String) : a ++ "" = a := by
  apply str_eq_of_data
  rw [data_append]
  exact List.append_nil _

theorem wrap_layer_names (name : String) (input_layer : KTensor)
    (build_func : KTensor → String × List LayerNode) (dropout_rate : Rat)
    (hb : ∀ nd ∈ (build_func input_layer).2, ∃ r, nd.name = name ++ r) :
    ∀ nd ∈ (wrap_layer name input_layer build_func dropout_rate).2,
      ∃ r, nd.name = name ++ r := by
  intro nd h
  simp only [wrap_layer] at h
  rw [List.mem_append] at h
  rcases h with h | h
  · rw [List.mem_append] at h
    rcases h with h | h
    · exact hb nd h
    · by_cases hd : 0 < dropout_rate ∧ dropout_rate < 1
      · rw [if_pos hd] at h
        rw [List.mem_singleton] at h
        subst h
        exact ⟨"-Dropout", rfl⟩
      · rw [if_neg hd] at h
        exact absurd h (List.not_mem_nil nd)
  · rw [List.mem_cons, List.mem_singleton] at h
    rcases h with h | h
    · subst h
      exact ⟨"-Add", rfl⟩
    · subst h
      exact ⟨"-Norm", rfl⟩

theorem get_encoder_component_names (name input_layer : String)
    (head_num hidden_dim feed_forward_dim : Nat)
    (attention_dropout_rate hidden_dropout_rate : Rat) :
    ∀ nd ∈ (get_encoder_component name input_layer head_num hidden_dim feed_forward_dim
        attention_dropout_rate hidden_dropout_rate).2,
      ∃ r, nd.name = name ++ r := by
  intro nd h
  simp only [get_encoder_component] at h
  rw [List.mem_append] at h
  rcases h with h | h
  · obtain ⟨r, hr⟩ := wrap_layer_names (name ++ "-MultiHeadSelfAttention") _ _ _
      (by
        intro nd2 h2
        rw [List.mem_singleton] at h2
        subst h2
        exact ⟨"", str_append_empty _ |>.symm⟩) nd h
    exact ⟨"-MultiHeadSelfAttention" ++ r, by rw [hr, str_append_assoc]⟩
  · obtain ⟨r, hr⟩ := wrap_layer_names (name ++ "-FeedForward") _ _ _
      (by
        intro nd2 h2
        rw [List.mem_singleton] at h2
        subst h2
        exact ⟨"", str_append_empty _ |>.symm⟩) nd h
    exact ⟨"-FeedForward" ++ r, by rw [hr, str_append_assoc]⟩

theorem encoders_from_names (head_num hidden_dim feed_forward_dim : Nat)
    (attention_dropout_rate hidden_dropout_rate : Rat) (k : Nat) :
    ∀ (i : Nat) (last_layer : String),
      ∀ nd ∈ (encoders_from head_num hidden_dim feed_forward_dim attention_dropout_rate
          hidden_dropout_rate i k last_layer).2,
        ∃ r, nd.name = "Encoder-" ++ r := by
  induction k with
  | zero =>
    intro i last_layer nd h
    exact absurd h (List.not_mem_nil nd)
  | succ k ih =>
    intro i last_layer nd h
    simp only [encoders_from] at h
    rw [List.mem_append] at h
    rcases h with h | h
    · obtain ⟨r, hr⟩ := get_encoder_component_names ("Encoder-" ++ toString i) _ _ _ _ _ _ nd h
      exact ⟨toString i ++ r, by rw [hr, str_append_assoc]⟩
    · exact ih (i + 1) _ nd h

theorem get_encoders_names (encoder_num : Nat) (input_layer : String)
    (head_num hidden_dim feed_forward_dim : Nat)
    (attention_dropout_rate hidden_dropout_rate : Rat) :
    ∀ nd ∈ (get_encoders encoder_num input_layer head_num hidden_dim feed_forward_dim
        attention_dropout_rate hidden_dropout_rate).2,
      ∃ r, nd.name = "Encoder-" ++ r :=
  encoders_from_names head_num hidden_dim feed_forward_dim attention_dropout_rate
    hidden_dropout_rate encoder_num 0 input_layer

/-- The node list of `get_model` in head-normal form: the two inputs, the
seven unconditional embedding-part nodes, then the optional embedding
dropout, the optional projection, the encoder stack, and the optional
discriminator head. -/
theorem get_model_nodes (vocab_size segment_type_size max_pos_num : Nat)
    (seq_len : Option Nat)
    (embedding_dim hidden_dim transformer_num head_num feed_forward_dim : Nat)
    (attention_dropout_rate hidden_dropout_rate : Rat) (with_discriminator : Bool) :
    (get_model vocab_size segment_type_size max_pos_num seq_len embedding_dim hidden_dim
      transformer_num head_num feed_forward_dim attention_dropout_rate hidden_dropout_rate
      with_discriminator).nodes =
    ⟨"Input-Token", .input seq_len, [], []⟩ ::
    ⟨"Input-Segment", .input seq_len, [], []⟩ ::
    ⟨"Embedding-Token", .tokenEmbedding, ["Input-Token"], [some [vocab_size, embedding_dim]]⟩ ::
    ⟨"Embedding-Segment", .embedding, ["Input-Segment"], [some [segment_type_size, embedding_dim]]⟩ ::
    ⟨"Embedding-Add-Token-Segment", .add, ["Embedding-Token", "Embedding-Segment"], []⟩ ::
    ⟨"Embedding-Position", .positionEmbedding, ["Embedding-Add-Token-Segment"],
      [some [max_pos_num, embedding_dim]]⟩ ::
    ⟨"Embedding-Norm", .layerNorm, ["Embedding-Position"], [none, none]⟩ ::
    ((if 0 < hidden_dropout_rate ∧ hidden_dropout_rate < 1 then
        [⟨"Embedding-Dropout", .dropout, ["Embedding-Norm"], []⟩] else []) ++
     ((if embedding_dim ≠ hidden_dim then
        [⟨"Embedding-Map", .dense,
          [if 0 < hidden_dropout_rate ∧ hidden_dropout_rate < 1 then
            "Embedding-Dropout" else "Embedding-Norm"], [none, none]⟩] else []) ++
      ((get_encoders transformer_num
          (if embedding_dim ≠ hidden_dim then "Embedding-Map"
           else if 0 < hidden_dropout_rate ∧ hidden_dropout_rate < 1 then
            "Embedding-Dropout" else "Embedding-Norm")
          head_num hidden_dim feed_forward_dim attention_dropout_rate
          hidden_dropout_rate).2 ++
       (if with_discriminator then
          [⟨"Discriminator-Dense", .dense,
            [(get_encoders transformer_num
               (if embedding_dim ≠ hidden_dim then "Embedding-Map"
                else if 0 < hidden_dropout_rate ∧ hidden_dropout_rate < 1 then
                 "Embedding-Dropout" else "Embedding-Norm")
               head_num hidden_dim feed_forward_dim attention_dropout_rate
               hidden_dropout_rate).1], [none, none]⟩,
           ⟨"Discriminator-Prediction", .dense, ["Discriminator-Dense"], [none, none]⟩]
        else [])))) := by
  simp only [get_model, get_inputs, get_embeddings, wrap_embedding, List.append_assoc,
    List.cons_append, List.nil_append, List.singleton_append]
  rfl

theorem mem_ite_singleton {c : Prop} [Decidable c] {x nd : LayerNode}
    (h : nd ∈ (if c then [x] else [])) : nd = x ∧ c := by
  by_cases hc : c
  · rw [if_pos hc] at h
    exact ⟨List.mem_singleton.mp h, hc⟩
  · rw [if_neg hc] at h
    exact absurd h (List.not_mem_nil nd)

theorem mem_ite_pair {c : Prop} [Decidable c] {x y nd : LayerNode}
    (h : nd ∈ (if c then [x, y] else [])) : nd = x ∨ nd = y := by
  by_cases hc : c
  · rw [if_pos hc] at h
    rw [List.mem_cons, List.mem_singleton] at h
    exact h
  · rw [if_neg hc] at h
    exact absurd h (List.not_mem_nil nd)

/-- C2: in every encoder component the self-attention block receives the
list `[input, input, input]`, and its residual `Add` node combines the
first element of that list (the block's unified pre-dropout input) with
the post-dropout output — not the list itself. -/
theorem residual_add_uses_unified_input (name input_layer : String)
    (head_num hidden_dim feed_forward_dim : Nat)
    (attention_dropout_rate hidden_dropout_rate : Rat) :
    findNode (get_encoder_component name input_layer head_num hidden_dim feed_forward_dim
        attention_dropout_rate hidden_dropout_rate).2
      (name ++ "-MultiHeadSelfAttention-Add") =
    some ⟨name ++ "-MultiHeadSelfAttention-Add", .add,
      [input_layer,
       if 0 < hidden_dropout_rate ∧ hidden_dropout_rate < 1 then
         name ++ "-MultiHeadSelfAttention-Dropout"
       else name ++ "-MultiHeadSelfAttention"], []⟩ := by
  simp only [get_encoder_component, wrap_layer, List.append_assoc, List.cons_append,
    List.nil_append, List.singleton_append, str_append_assoc,
    show ("-MultiHeadSelfAttention" ++ "-Add" : String) = "-MultiHeadSelfAttention-Add" from rfl,
    show ("-MultiHeadSelfAttention" ++ "-Dropout" : String) =
      "-MultiHeadSelfAttention-Dropout" from rfl,
    show ("-MultiHeadSelfAttention" ++ "-Norm" : String) =
      "-MultiHeadSelfAttention-Norm" from rfl]
  by_cases hd : 0 < hidden_dropout_rate ∧ hidden_dropout_rate < 1
  · simp only [if_pos hd, List.cons_append, List.nil_append]
    rw [findNode, if_neg (str_append_right_ne name (by decide)),
      findNode, if_neg (str_append_right_ne name (by decide)),
      findNode, if_pos rfl]
    rfl
  · simp only [if_neg hd, List.cons_append, List.nil_append]
    rw [findNode, if_neg (str_append_right_ne name (by decide)),
      findNode, if_pos rfl]
    rfl

/-- C5: the graph contains the `Embedding-Map` projection node exactly
when the configured embedding dimensionality differs from the hidden
dimensionality (in particular present for hidden 128 / embedding 64,
absent for embedding = hidden = 128). -/
theorem embedding_projection_iff (vocab_size segment_type_size max_pos_num : Nat)
    (seq_len : Option Nat)
    (embedding_dim hidden_dim transformer_num head_num feed_forward_dim : Nat)
    (attention_dropout_rate hidden_dropout_rate : Rat) (with_discriminator : Bool) :
    (findNode (get_model vocab_size segment_type_size max_pos_num seq_len embedding_dim
        hidden_dim transformer_num head_num feed_forward_dim attention_dropout_rate
        hidden_dropout_rate with_discriminator).nodes "Embedding-Map").isSome = true ↔
      embedding_dim ≠ hidden_dim := by
  rw [get_model_nodes, findNode_isSome_iff]
  constructor
  · rintro ⟨nd, hmem, hname⟩
    intro heq
    subst heq
    simp only [ne_eq, not_true_eq_false, if_false, List.nil_append] at hmem
    simp only [List.mem_cons, List.mem_append] at hmem
    rcases hmem with rfl | rfl | rfl | rfl | rfl | rfl | rfl | hm
    · simp at hname
    · simp at hname
    · simp at hname
    · simp at hname
    · simp at hname
    · simp at hname
    · simp at hname
    · rcases hm with hm | hm | hm
      · obtain ⟨h1, -⟩ := mem_ite_singleton hm
        subst h1
        simp at hname
      · obtain ⟨r, hr⟩ := get_encoders_names _ _ _ _ _ _ _ nd hm
        rw [hr] at hname
        exact append_ne_of_not_pre (by decide) r hname
      · rcases mem_ite_pair hm with h1 | h1
        · subst h1
          simp at hname
        · subst h1
          simp at hname
  · intro hne
    refine ⟨⟨"Embedding-Map", .dense,
      [if 0 < hidden_dropout_rate ∧ hidden_dropout_rate < 1 then
        "Embedding-Dropout" else "Embedding-Norm"], [none, none]⟩, ?_, rfl⟩
    simp only [List.mem_cons, List.mem_append]
    refine Or.inr (Or.inr (Or.inr (Or.inr (Or.inr (Or.inr (Or.inr (Or.inr (Or.inl ?_))))))))
    rw [if_pos hne]
    exact List.mem_singleton.mpr rfl

/-- C10: `build_electra_model` with a non-None `seq_len` sets the
effective position count to `min seq_len max_position_embeddings`, uses it
both for the graph's position-embedding table slot and for the slicing
bound of the binding procedure, while the two input placeholders are
always built with dynamic (unset) sequence length; with `seq_len = None`
the config is used unchanged. -/
theorem seq_len_clamps_position_count (config : ElectraConfig) (ckpt : Checkpoint)
    (n : Nat) (wd : Bool) :
    (build_electra_model config ckpt (some n) wd).config_eff.max_position_embeddings =
      min n config.max_position_embeddings ∧
    (build_electra_model config ckpt none wd).config_eff = config ∧
    findNode (build_electra_model config ckpt (some n) wd).graph.nodes "Input-Token" =
      some ⟨"Input-Token", .input none, [], []⟩ ∧
    findNode (build_electra_model config ckpt (some n) wd).graph.nodes "Input-Segment" =
      some ⟨"Input-Segment", .input none, [], []⟩ ∧
    findNode (build_electra_model config ckpt (some n) wd).graph.nodes "Embedding-Position" =
      some ⟨"Embedding-Position", .positionEmbedding, ["Embedding-Add-Token-Segment"],
        [some [min n config.max_position_embeddings,
               config.embedding_size.getD config.hidden_size]]⟩ ∧
    (build_electra_model config ckpt (some n) wd).bind =
      runItems (build_electra_model config ckpt (some n) wd).graph.nodes ckpt
        (bindProgram (min n config.max_position_embeddings) config.num_hidden_layers wd)
        ⟨[], []⟩ := by
  refine ⟨rfl, rfl, ?_, ?_, ?_, rfl⟩
  · simp [build_electra_model, get_model_nodes, findNode]
  · simp [build_electra_model, get_model_nodes, findNode]
  · simp [build_electra_model, get_model_nodes, findNode]

theorem runItems_append_ok (g : List LayerNode) (ckpt : Checkpoint)
    (A B : List BindItem) (s s1 : BState) (h : runItems g ckpt A s = (s1, none)) :
    runItems g ckpt (A ++ B) s = runItems g ckpt B s1 := by
  rw [runItems_append, h]

theorem runItems_append_err (g : List LayerNode) (ckpt : Checkpoint)
    (A B : List BindItem) (s s1 : BState) (e : BindError)
    (h : runItems g ckpt A s = (s1, some e)) :
    runItems g ckpt (A ++ B) s = (s1, some e) := by
  rw [runItems_append, h]

theorem runItems_skip_group (g : List LayerNode) (ckpt : Checkpoint) (i : Nat)
    (rest : List BindItem) (s : BState) (h : findNode g (attnLayerName i) = none) :
    runItems g ckpt (mkLayerGroup i :: rest) s = runItems g ckpt rest s := by
  rw [mkLayerGroup, runItems, h]

/-- C6: if the graph has no attention node named for layer `i`, the whole
binding procedure behaves exactly as if the four binding steps of layer
`i` were removed from it: the layer is skipped without error and binding
continues with the remaining items. -/
theorem binder_skips_absent_layer (g : List LayerNode) (ckpt : Checkpoint) (s : BState)
    (maxPos n i : Nat) (wd : Bool) (hi : i < n)
    (habs : findNode g (attnLayerName i) = none) :
    runItems g ckpt (bindProgram maxPos n wd) s =
    runItems g ckpt (embeddingSteps maxPos ++
      ((List.range i).map mkLayerGroup ++
        (List.range (n - (i + 1))).map (fun j => mkLayerGroup (i + 1 + j))) ++
      (if wd then discSteps else [])) s := by
  obtain ⟨k, rfl⟩ : ∃ k, n = i + 1 + k := ⟨n - (i + 1), by omega⟩
  have hsub : i + 1 + k - (i + 1) = k := by omega
  rw [hsub]
  rw [bindProgram, List.range_add, List.range_succ, List.map_append, List.map_append,
    List.map_map]
  rw [show (mkLayerGroup ∘ fun x => i + 1 + x) = (fun j => mkLayerGroup (i + 1 + j)) from rfl]
  simp only [List.append_assoc, List.cons_append, List.singleton_append, List.nil_append,
    List.map_cons, List.map_nil]
  cases h1 : runItems g ckpt (embeddingSteps maxPos) s with
  | mk s1 e1 =>
    cases e1 with
    | some e =>
      rw [runItems_append_err g ckpt _ _ s s1 e h1, runItems_append_err g ckpt _ _ s s1 e h1]
    | none =>
      rw [runItems_append_ok g ckpt _ _ s s1 h1, runItems_append_ok g ckpt _ _ s s1 h1]
      cases h2 : runItems g ckpt ((List.range i).map mkLayerGroup) s1 with
      | mk s2 e2 =>
        cases e2 with
        | some e =>
          rw [runItems_append_err g ckpt _ _ s1 s2 e h2,
            runItems_append_err g ckpt _ _ s1 s2 e h2]
        | none =>
          rw [runItems_append_ok g ckpt _ _ s1 s2 h2, runItems_append_ok g ckpt _ _ s1 s2 h2]
          exact runItems_skip_group g ckpt i _ s2 habs

/-- C7: whenever the attention bind step of layer `i` completes, it
assigns the attention node exactly eight tensors, in the fixed order
query kernel, query bias, key kernel, key bias, value kernel, value bias,
output-projection kernel, output-projection bias, each fetched from the
exact `bert/encoder/layer_<i>/attention/...` checkpoint path. -/
theorem attention_bind_eight_tensors (g : List LayerNode) (ckpt : Checkpoint)
    (s : BState) (i : Nat)
    (hok : (runStep g ckpt (mkAttnStep i) s).2 = none) :
    ∃ ts : List Tensor,
      [ckpt (layerKey i "/attention/self/query/kernel"),
       ckpt (layerKey i "/attention/self/query/bias"),
       ckpt (layerKey i "/attention/self/key/kernel"),
       ckpt (layerKey i "/attention/self/key/bias"),
       ckpt (layerKey i "/attention/self/value/kernel"),
       ckpt (layerKey i "/attention/self/value/bias"),
       ckpt (layerKey i "/attention/output/dense/kernel"),
       ckpt (layerKey i "/attention/output/dense/bias")] = ts.map some ∧
      (runStep g ckpt (mkAttnStep i) s).1.params =
        setParam (attnLayerName i) ts s.params := by
  have h : runStep g ckpt (mkAttnStep i) s = ((runStep g ckpt (mkAttnStep i) s).1, none) := by
    rw [← hok]
  obtain ⟨nd, ts, hn, hf, hs, hp, hq⟩ := runStep_ok g ckpt (mkAttnStep i) s _ h
  refine ⟨ts, ?_, hp⟩
  have hall : ∀ f ∈ (mkAttnStep i).fetches, f.2 = (none : Option Nat) := by
    intro f hf2
    simp only [mkAttnStep, List.mem_cons, List.not_mem_nil, or_false] at hf2
    rcases hf2 with rfl | rfl | rfl | rfl | rfl | rfl | rfl | rfl <;> rfl
  exact fetchList_ok_maps ckpt (mkAttnStep i).fetches ts hall hf

/-- Witness graph for the attention bind step: a single attention node. -/
def attnWitnessGraph : List LayerNode :=
  [⟨attnLayerName 0, .attention, [], [none, none, none, none, none, none, none, none]⟩]

/-- Witness checkpoint providing the eight layer-0 attention keys. -/
def attnWitnessCkpt : Checkpoint := fun k =>
  ((mkAttnStep 0).fetches.map (fun f => f.1)).indexOf? k |>.map (fun idx => .vec [(idx : Nat)])

theorem attention_bind_eight_tensors_witness :
    ∃ ts : List Tensor,
      [attnWitnessCkpt (layerKey 0 "/attention/self/query/kernel"),
       attnWitnessCkpt (layerKey 0 "/attention/self/query/bias"),
       attnWitnessCkpt (layerKey 0 "/attention/self/key/kernel"),
       attnWitnessCkpt (layerKey 0 "/attention/self/key/bias"),
       attnWitnessCkpt (layerKey 0 "/attention/self/value/kernel"),
       attnWitnessCkpt (layerKey 0 "/attention/self/value/bias"),
       attnWitnessCkpt (layerKey 0 "/attention/output/dense/kernel"),
       attnWitnessCkpt (layerKey 0 "/attention/output/dense/bias")] = ts.map some ∧
      (runStep attnWitnessGraph attnWitnessCkpt (mkAttnStep 0) ⟨[], []⟩).1.params =
        setParam (attnLayerName 0) ts [] :=
  attention_bind_eight_tensors attnWitnessGraph attnWitnessCkpt ⟨[], []⟩ 0 (by decide)

theorem binder_skips_absent_layer_witness :
    runItems [] (fun _ => none) (bindProgram 1 1 false) ⟨[], []⟩ =
    runItems [] (fun _ => none) (embeddingSteps 1 ++
      ((List.range 0).map mkLayerGroup ++
        (List.range (1 - (0 + 1))).map (fun j => mkLayerGroup (0 + 1 + j))) ++
      (if false then discSteps else [])) ⟨[], []⟩ :=
  binder_skips_absent_layer [] (fun _ => none) ⟨[], []⟩ 1 1 0 false (by decide) rfl

/-- A config whose embedding size equals the hidden size — the default
path of `build_electra_model` when the config file has no
`embedding_size` entry (electra.py:263). The graph then has no
`Embedding-Map` node. -/
def cfgNoProj : ElectraConfig :=
  ⟨1, 1, 1, 1, none, 0, 1, 1, "gelu", 0, 0⟩

/-- A checkpoint holding every embedding key, including both
`electra/embeddings_project` keys. -/
def ckptNoProj : Checkpoint := fun k =>
  ([("bert/embeddings/word_embeddings", Tensor.mat 1 [[0]]),
    ("bert/embeddings/token_type_embeddings", Tensor.mat 1 [[0]]),
    ("bert/embeddings/position_embeddings", Tensor.mat 1 [[0]]),
    ("bert/embeddings/LayerNorm/gamma", Tensor.vec [0]),
    ("bert/embeddings/LayerNorm/beta", Tensor.vec [0]),
    ("electra/embeddings_project/kernel", Tensor.vec [0]),
    ("electra/embeddings_project/bias", Tensor.vec [0])]).lookup k

/-- C1: the `Embedding-Map` binding step is unconditional in the code
(no `try/except` around electra.py:313, unlike the encoder loop), so on a
graph built with embedding size = hidden size — which has no
`Embedding-Map` node — binding always aborts with a missing-layer error,
before ever querying the two projection keys. The spec's only-if-present
graceful skip does not hold. -/
theorem embedding_map_bind_unconditional :
    findNode (build_electra_model cfgNoProj ckptNoProj none false).graph.nodes
      "Embedding-Map" = none ∧
    (build_electra_model cfgNoProj ckptNoProj none false).bind.2 =
      some (.missingLayer "Embedding-Map") ∧
    "electra/embeddings_project/kernel" ∉
      (build_electra_model cfgNoProj ckptNoProj none false).bind.1.queried ∧
    "electra/embeddings_project/bias" ∉
      (build_electra_model cfgNoProj ckptNoProj none false).bind.1.queried := by
  decide

/-- A 2-encoder-layer config with a projection (embedding 1 ≠ hidden 2). -/
def cfgTwoLayer : ElectraConfig :=
  ⟨1, 1, 1, 2, some 1, 2, 1, 1, "gelu", 0, 0⟩

/-- The sixteen per-layer checkpoint keys, in binding order. -/
def encoderLayerKeys (i : Nat) : List String :=
  [layerKey i "/attention/self/query/kernel",
   layerKey i "/attention/self/query/bias",
   layerKey i "/attention/self/key/kernel",
   layerKey i "/attention/self/key/bias",
   layerKey i "/attention/self/value/kernel",
   layerKey i "/attention/self/value/bias",
   layerKey i "/attention/output/dense/kernel",
   layerKey i "/attention/output/dense/bias",
   layerKey i "/attention/output/LayerNorm/gamma",
   layerKey i "/attention/output/LayerNorm/beta",
   layerKey i "/intermediate/dense/kernel",
   layerKey i "/intermediate/dense/bias",
   layerKey i "/output/dense/kernel",
   layerKey i "/output/dense/bias",
   layerKey i "/output/LayerNorm/gamma",
   layerKey i "/output/LayerNorm/beta"]

/-- The embedding-part entries shared by the two-layer scenarios. -/
def twoLayerEmbTable : List (String × Tensor) :=
  [("bert/embeddings/word_embeddings", Tensor.mat 1 [[0]]),
   ("bert/embeddings/token_type_embeddings", Tensor.mat 1 [[0]]),
   ("bert/embeddings/position_embeddings", Tensor.mat 1 [[0]]),
   ("bert/embeddings/LayerNorm/gamma", Tensor.vec [0]),
   ("bert/embeddings/LayerNorm/beta", Tensor.vec [0]),
   ("electra/embeddings_project/kernel", Tensor.vec [0]),
   ("electra/embeddings_project/bias", Tensor.vec [0])]

/-- A checkpoint with all keys except layer 1's query kernel — the first
key of layer 1's first bound node. -/
def ckptMissingQuery : Checkpoint := fun k =>
  (twoLayerEmbTable ++ (encoderLayerKeys 0).map (fun key => (key, Tensor.vec [0])) ++
    ((encoderLayerKeys 1).filter
      (fun key => key != layerKey 1 "/attention/self/query/kernel")).map
      (fun key => (key, Tensor.vec [1]))).lookup k

/-- A checkpoint with all keys except layer 1's first feed-forward
kernel — a key required only after layer 1's attention and
attention-norm nodes were already bound. -/
def ckptMissingFF : Checkpoint := fun k =>
  (twoLayerEmbTable ++ (encoderLayerKeys 0).map (fun key => (key, Tensor.vec [0])) ++
    ((encoderLayerKeys 1).filter
      (fun key => key != layerKey 1 "/intermediate/dense/kernel")).map
      (fun key => (key, Tensor.vec [1]))).lookup k

/-- C8 counterexample: with layer 1's feed-forward kernel missing from
the checkpoint, binding aborts with that key — but layer 1's attention
parameters HAVE been assigned, contradicting the claim that no parameters
of the failing layer are assigned. -/
theorem missing_ff_key_leaves_layer_partially_bound :
    (build_electra_model cfgTwoLayer ckptMissingFF none false).bind.2 =
      some (.missingKey "bert/encoder/layer_1/intermediate/dense/kernel") ∧
    getParam "Encoder-1-MultiHeadSelfAttention"
      (build_electra_model cfgTwoLayer ckptMissingFF none false).bind.1.params ≠ none := by
  decide

/-- C9: running the Weight Binder twice in succession over the same graph
and checkpoint leaves every layer's parameter slots with exactly the
values a single run produces, and produces the same outcome. -/
theorem binding_idempotent (g : List LayerNode) (config : ElectraConfig)
    (ckpt : Checkpoint) (wd : Bool) (p : ParamState) (k : String) :
    getParam k (load_model_weights_from_checkpoint g config ckpt wd
      ⟨(load_model_weights_from_checkpoint g config ckpt wd ⟨p, []⟩).1.params, []⟩).1.params =
      getParam k (load_model_weights_from_checkpoint g config ckpt wd ⟨p, []⟩).1.params ∧
    (load_model_weights_from_checkpoint g config ckpt wd
      ⟨(load_model_weights_from_checkpoint g config ckpt wd ⟨p, []⟩).1.params, []⟩).2 =
      (load_model_weights_from_checkpoint g config ckpt wd ⟨p, []⟩).2 := by
  constructor
  · simp only [load_model_weights_from_checkpoint, runItems_char]
    exact applyAssigns_twice _ p k
  · simp only [load_model_weights_from_checkpoint, runItems_char]

/-- The graph `build_electra_model` builds for a config (electra.py:258-275):
`get_model` applied to the config's fields, with dynamic-length inputs. -/
def electraModelNodes (config : ElectraConfig) (wd : Bool) : List LayerNode :=
  (get_model config.vocab_size config.type_vocab_size config.max_position_embeddings none
    (config.embedding_size.getD config.hidden_size) config.hidden_size
    config.num_hidden_layers config.num_attention_heads config.intermediate_size
    config.attention_probs_dropout_prob config.hidden_dropout_prob wd).nodes

theorem layer_groups_names (nl : Nat) :
    ∀ n ∈ itemsNames ((List.range nl).map mkLayerGroup), ∃ r, n = "Encoder-" ++ r := by
  intro n hn
  simp only [itemsNames, List.mem_flatten, List.mem_map] at hn
  obtain ⟨l, ⟨it, hit, rfl⟩, hnl⟩ := hn
  obtain ⟨i, hi, rfl⟩ := hit
  simp only [mkLayerGroup, itemNames, stepsNames, mkAttnStep, mkAttnNormStep, mkFFStep,
    mkFFNormStep, List.map_cons, List.map_nil, List.mem_cons, List.not_mem_nil,
    or_false] at hnl
  rcases hnl with rfl | rfl | rfl | rfl
  · exact ⟨toString i ++ "-MultiHeadSelfAttention", rfl⟩
  · refine ⟨toString i ++ "-MultiHeadSelfAttention" ++ "-Norm", ?_⟩
    rw [attnLayerName]
    exact str_append_assoc _ _ _
  · exact ⟨toString i ++ "-FeedForward", rfl⟩
  · refine ⟨toString i ++ "-FeedForward" ++ "-Norm", ?_⟩
    rw [ffLayerName]
    exact str_append_assoc _ _ _

theorem runItems_cons_ok (g : List LayerNode) (ckpt : Checkpoint) (st : BindStep)
    (rest : List BindItem) (s s1 : BState) (h : runStep g ckpt st s = (s1, none)) :
    runItems g ckpt (.step st :: rest) s = runItems g ckpt rest s1 := by
  rw [runItems, h]

theorem runItems_cons_err (g : List LayerNode) (ckpt : Checkpoint) (st : BindStep)
    (rest : List BindItem) (s s1 : BState) (e : BindError)
    (h : runStep g ckpt st s = (s1, some e)) :
    runItems g ckpt (.step st :: rest) s = (s1, some e) := by
  rw [runItems, h]

theorem itemsNames_cons (it : BindItem) (rest : List BindItem) :
    itemsNames (it :: rest) = itemNames it ++ itemsNames rest := by
  simp [itemsNames]

theorem itemsNames_append (A B : List BindItem) :
    itemsNames (A ++ B) = itemsNames A ++ itemsNames B := by
  simp [itemsNames]

/-- C3: whenever binding over the built graph succeeds, the
`Embedding-Position` node ends up holding exactly the first
`max_position_embeddings` rows of the stored position table (so the
stored table had at least that many rows, any excess being silently
discarded); and when the stored table has fewer rows, binding fails. -/
theorem position_embedding_slicing (config : ElectraConfig) (ckpt : Checkpoint)
    (wd : Bool) (p : ParamState) (rows : List (List Int))
    (hpos : ckpt "bert/embeddings/position_embeddings" =
      some (.mat (config.embedding_size.getD config.hidden_size) rows)) :
    ((load_model_weights_from_checkpoint (electraModelNodes config wd) config ckpt wd
        ⟨p, []⟩).2 = none →
      config.max_position_embeddings ≤ rows.length ∧
      getParam "Embedding-Position"
        (load_model_weights_from_checkpoint (electraModelNodes config wd) config ckpt wd
          ⟨p, []⟩).1.params =
        some [.mat (config.embedding_size.getD config.hidden_size)
          (rows.take config.max_position_embeddings)]) ∧
    (rows.length < config.max_position_embeddings →
      (load_model_weights_from_checkpoint (electraModelNodes config wd) config ckpt wd
        ⟨p, []⟩).2 ≠ none) := by
  have hprog : bindProgram config.max_position_embeddings config.num_hidden_layers wd =
      BindItem.step ⟨"Embedding-Token", [("bert/embeddings/word_embeddings", none)]⟩ ::
      BindItem.step ⟨"Embedding-Segment", [("bert/embeddings/token_type_embeddings", none)]⟩ ::
      BindItem.step ⟨"Embedding-Position",
        [("bert/embeddings/position_embeddings", some config.max_position_embeddings)]⟩ ::
      BindItem.step ⟨"Embedding-Norm",
        [("bert/embeddings/LayerNorm/gamma", none),
         ("bert/embeddings/LayerNorm/beta", none)]⟩ ::
      BindItem.step ⟨"Embedding-Map",
        [("electra/embeddings_project/kernel", none),
         ("electra/embeddings_project/bias", none)]⟩ ::
      ((List.range config.num_hidden_layers).map mkLayerGroup ++
        (if wd then discSteps else [])) := by
    simp [bindProgram, embeddingSteps]
  rw [load_model_weights_from_checkpoint, hprog]
  cases hr1 : runStep (electraModelNodes config wd) ckpt
      ⟨"Embedding-Token", [("bert/embeddings/word_embeddings", none)]⟩ ⟨p, []⟩ with
  | mk s1 e1 =>
    cases e1 with
    | some e =>
      rw [runItems_cons_err _ _ _ _ _ _ _ hr1]
      exact ⟨fun h => absurd h (by simp), fun _ => by simp⟩
    | none =>
      rw [runItems_cons_ok _ _ _ _ _ _ hr1]
      cases hr2 : runStep (electraModelNodes config wd) ckpt
          ⟨"Embedding-Segment", [("bert/embeddings/token_type_embeddings", none)]⟩ s1 with
      | mk s2 e2 =>
        cases e2 with
        | some e =>
          rw [runItems_cons_err _ _ _ _ _ _ _ hr2]
          exact ⟨fun h => absurd h (by simp), fun _ => by simp⟩
        | none =>
          rw [runItems_cons_ok _ _ _ _ _ _ hr2]
          have hfind3 : findNode (electraModelNodes config wd) "Embedding-Position" =
              some ⟨"Embedding-Position", .positionEmbedding, ["Embedding-Add-Token-Segment"],
                [some [config.max_position_embeddings,
                       config.embedding_size.getD config.hidden_size]]⟩ := by
            simp [electraModelNodes, get_model_nodes, findNode]
          have hfetch : fetchList ckpt
              [("bert/embeddings/position_embeddings", some config.max_position_embeddings)] =
              (["bert/embeddings/position_embeddings"],
               .ok [.mat (config.embedding_size.getD config.hidden_size)
                 (rows.take config.max_position_embeddings)]) := by
            simp [fetchList, hpos, applySlice, Tensor.takeRows, Except.map]
          by_cases hlen : config.max_position_embeddings ≤ rows.length
          · have hr3 : runStep (electraModelNodes config wd) ckpt
                ⟨"Embedding-Position",
                  [("bert/embeddings/position_embeddings",
                    some config.max_position_embeddings)]⟩ s2 =
                (⟨setParam "Embedding-Position"
                    [.mat (config.embedding_size.getD config.hidden_size)
                      (rows.take config.max_position_embeddings)] s2.params,
                  s2.queried ++ ["bert/embeddings/position_embeddings"]⟩, none) := by
              simp only [runStep, hfind3, hfetch, shapesOk, Tensor.shape, List.length_take]
              rw [min_eq_left hlen]
              simp
            rw [runItems_cons_ok _ _ _ _ _ _ hr3]
            have hnames : ∀ n ∈ itemsNames (
                BindItem.step ⟨"Embedding-Norm",
                  [("bert/embeddings/LayerNorm/gamma", none),
                   ("bert/embeddings/LayerNorm/beta", none)]⟩ ::
                BindItem.step ⟨"Embedding-Map",
                  [("electra/embeddings_project/kernel", none),
                   ("electra/embeddings_project/bias", none)]⟩ ::
                ((List.range config.num_hidden_layers).map mkLayerGroup ++
                  (if wd then discSteps else []))), n ≠ "Embedding-Position" := by
              intro n hn
              rw [itemsNames_cons, itemsNames_cons, itemsNames_append] at hn
              simp only [List.mem_append, itemNames, List.mem_singleton] at hn
              rcases hn with rfl | rfl | hn | hn
              · decide
              · decide
              · obtain ⟨r, rfl⟩ := layer_groups_names config.num_hidden_layers n hn
                exact append_ne_of_not_pre (by decide) r
              · cases wd with
                | false => simp [itemsNames] at hn
                | true =>
                  simp only [if_pos, itemsNames, discSteps, itemNames, List.map_cons,
                    List.map_nil, List.flatten_cons, List.flatten_nil, List.mem_append,
                    List.mem_singleton, List.append_nil, List.mem_cons,
                    List.not_mem_nil, or_false] at hn
                  rcases hn with rfl | rfl
                  · decide
                  · decide
            refine ⟨fun _ => ⟨hlen, ?_⟩, fun hlt => absurd hlen (by omega)⟩
            rw [getParam_runItems_ne _ _ _ _ _ hnames]
            exact getParam_setParam_eq _ _ _
          · have hr3 : runStep (electraModelNodes config wd) ckpt
                ⟨"Embedding-Position",
                  [("bert/embeddings/position_embeddings",
                    some config.max_position_embeddings)]⟩ s2 =
                (⟨s2.params, s2.queried ++ ["bert/embeddings/position_embeddings"]⟩,
                 some (.badShape "Embedding-Position")) := by
              simp only [runStep, hfind3, hfetch, shapesOk, Tensor.shape, List.length_take]
              rw [min_eq_right (Nat.le_of_lt (not_le.mp hlen))]
              have hne : rows.length ≠ config.max_position_embeddings := by
                have := not_le.mp hlen
                omega
              simp [hne]
            rw [runItems_cons_err _ _ _ _ _ _ _ hr3]
            exact ⟨fun h => absurd h (by simp), fun _ => by simp⟩

theorem itemsKeys_append (A B : List BindItem) :
    itemsKeys (A ++ B) = itemsKeys A ++ itemsKeys B := by
  simp [itemsKeys]

theorem layer_groups_keys (nl : Nat) :
    ∀ k ∈ itemsKeys ((List.range nl).map mkLayerGroup),
      ∃ r, k = "bert/encoder/layer_" ++ r := by
  intro k hk
  simp only [itemsKeys, List.mem_flatten, List.mem_map] at hk
  obtain ⟨l, ⟨it, hit, rfl⟩, hkl⟩ := hk
  obtain ⟨i, hi, rfl⟩ := hit
  simp only [mkLayerGroup, itemKeys, stepKeys, mkAttnStep, mkAttnNormStep, mkFFStep,
    mkFFNormStep, List.map_cons, List.map_nil, List.flatten_cons, List.flatten_nil,
    List.append_nil, List.mem_append, List.mem_cons, List.not_mem_nil, or_false,
    or_assoc] at hkl
  rcases hkl with rfl | rfl | rfl | rfl | rfl | rfl | rfl | rfl | rfl | rfl | rfl | rfl |
    rfl | rfl | rfl | rfl <;> exact ⟨_, rfl⟩

/-- C4: building with `with_discriminator=false` creates no
discriminator-named node and binding reads no discriminator-named key;
with `true` both discriminator dense nodes exist, a completed bind has
read all four `discriminator_predictions/...` keys, and the final output
is the discriminator prediction when present, else the encoder stack
output. -/
theorem discriminator_round_trip (config : ElectraConfig) (ckpt : Checkpoint)
    (p : ParamState) :
    findNode (electraModelNodes config false) "Discriminator-Dense" = none ∧
    findNode (electraModelNodes config false) "Discriminator-Prediction" = none ∧
    ((load_model_weights_from_checkpoint (electraModelNodes config false) config ckpt false
        ⟨p, []⟩).1.queried.all (fun k =>
        !(["discriminator_predictions/dense/kernel",
           "discriminator_predictions/dense/bias",
           "discriminator_predictions/dense_1/kernel",
           "discriminator_predictions/dense_1/bias"].contains k)) = true) ∧
    (findNode (electraModelNodes config true) "Discriminator-Dense").isSome = true ∧
    (findNode (electraModelNodes config true) "Discriminator-Prediction").isSome = true ∧
    ((load_model_weights_from_checkpoint (electraModelNodes config true) config ckpt true
        ⟨p, []⟩).2 = none →
      (["discriminator_predictions/dense/kernel",
        "discriminator_predictions/dense/bias",
        "discriminator_predictions/dense_1/kernel",
        "discriminator_predictions/dense_1/bias"].all (fun k =>
        (load_model_weights_from_checkpoint (electraModelNodes config true) config ckpt true
          ⟨p, []⟩).1.queried.contains k) = true)) ∧
    (get_model config.vocab_size config.type_vocab_size config.max_position_embeddings none
      (config.embedding_size.getD config.hidden_size) config.hidden_size
      config.num_hidden_layers config.num_attention_heads config.intermediate_size
      config.attention_probs_dropout_prob config.hidden_dropout_prob true).output =
      "Discriminator-Prediction" ∧
    (get_model config.vocab_size config.type_vocab_size config.max_position_embeddings none
      (config.embedding_size.getD config.hidden_size) config.hidden_size
      config.num_hidden_layers config.num_attention_heads config.intermediate_size
      config.attention_probs_dropout_prob config.hidden_dropout_prob false).output =
      (get_encoders config.num_hidden_layers
        (get_embeddings (get_inputs none).1 config.vocab_size config.type_vocab_size
          (config.embedding_size.getD config.hidden_size) config.hidden_size
          config.max_position_embeddings config.hidden_dropout_prob).1.1
        config.num_attention_heads config.hidden_size config.intermediate_size
        config.attention_probs_dropout_prob config.hidden_dropout_prob).1 := by
  have hmem : ∀ nd ∈ electraModelNodes config false,
      nd.name ≠ "Discriminator-Dense" ∧ nd.name ≠ "Discriminator-Prediction" := by
    intro nd hm
    rw [electraModelNodes, get_model_nodes] at hm
    simp only [List.mem_cons, List.mem_append] at hm
    rcases hm with rfl | rfl | rfl | rfl | rfl | rfl | rfl | hm
    · exact ⟨by simp, by simp⟩
    · exact ⟨by simp, by simp⟩
    · exact ⟨by simp, by simp⟩
    · exact ⟨by simp, by simp⟩
    · exact ⟨by simp, by simp⟩
    · exact ⟨by simp, by simp⟩
    · exact ⟨by simp, by simp⟩
    · rcases hm with hm | hm | hm | hm
      · obtain ⟨h1, -⟩ := mem_ite_singleton hm
        subst h1
        exact ⟨by simp, by simp⟩
      · obtain ⟨h1, -⟩ := mem_ite_singleton hm
        subst h1
        exact ⟨by simp, by simp⟩
      · obtain ⟨r, hr⟩ := get_encoders_names _ _ _ _ _ _ _ nd hm
        constructor
        · rw [hr]
          exact append_ne_of_not_pre (by decide) r
        · rw [hr]
          exact append_ne_of_not_pre (by decide) r
      · simp at hm
  refine ⟨findNode_eq_none _ _ (fun nd h => (hmem nd h).1),
    findNode_eq_none _ _ (fun nd h => (hmem nd h).2), ?_, ?_, ?_, ?_, rfl, rfl⟩
  · rw [List.all_eq_true]
    intro k hk
    have hsub := runItems_queried_sub (electraModelNodes config false) ckpt
      (bindProgram config.max_position_embeddings config.num_hidden_layers false)
      ⟨p, []⟩ k hk
    rcases hsub with h0 | h0
    · exact absurd h0 (List.not_mem_nil k)
    · have hne : k ∉ ["discriminator_predictions/dense/kernel",
          "discriminator_predictions/dense/bias",
          "discriminator_predictions/dense_1/kernel",
          "discriminator_predictions/dense_1/bias"] := by
        rw [bindProgram, itemsKeys_append, itemsKeys_append] at h0
        simp only [List.mem_append] at h0
        rcases h0 with (h0 | h0) | h0
        · simp only [itemsKeys, embeddingSteps, itemKeys, stepKeys, List.map_cons,
            List.map_nil, List.flatten_cons, List.flatten_nil, List.append_nil,
            List.mem_append, List.mem_cons, List.not_mem_nil, or_false, or_assoc] at h0
          rcases h0 with rfl | rfl | rfl | rfl | rfl | rfl | rfl | rfl | rfl <;> decide
        · obtain ⟨r, rfl⟩ := layer_groups_keys config.num_hidden_layers k h0
          intro hmem4
          simp only [List.mem_cons, List.not_mem_nil, or_false] at hmem4
          rcases hmem4 with h4 | h4 | h4 | h4 <;>
            exact append_ne_of_not_pre (by decide) r h4
        · simp [itemsKeys] at h0
      simp [hne]
  · rw [electraModelNodes, get_model_nodes, findNode_isSome_iff]
    exact ⟨_, List.mem_cons_of_mem _ (List.mem_cons_of_mem _ (List.mem_cons_of_mem _
      (List.mem_cons_of_mem _ (List.mem_cons_of_mem _ (List.mem_cons_of_mem _
      (List.mem_cons_of_mem _ (List.mem_append_right _ (List.mem_append_right _
      (List.mem_append_right _
        (by rw [if_pos rfl]; exact List.mem_cons_self _ _)))))))))), rfl⟩
  · rw [electraModelNodes, get_model_nodes, findNode_isSome_iff]
    exact ⟨_, List.mem_cons_of_mem _ (List.mem_cons_of_mem _ (List.mem_cons_of_mem _
      (List.mem_cons_of_mem _ (List.mem_cons_of_mem _ (List.mem_cons_of_mem _
      (List.mem_cons_of_mem _ (List.mem_append_right _ (List.mem_append_right _
      (List.mem_append_right _
        (by rw [if_pos rfl]; exact List.mem_cons_of_mem _ (List.mem_cons_self _ _))))))))))),
      rfl⟩
  · intro herr
    have hp : bindProgram config.max_position_embeddings config.num_hidden_layers true =
        (embeddingSteps config.max_position_embeddings ++
          (List.range config.num_hidden_layers).map mkLayerGroup) ++ discSteps := by
      simp [bindProgram, List.append_assoc]
    rw [load_model_weights_from_checkpoint, hp] at herr ⊢
    cases hpre : runItems (electraModelNodes config true) ckpt
        (embeddingSteps config.max_position_embeddings ++
          (List.range config.num_hidden_layers).map mkLayerGroup) ⟨p, []⟩ with
    | mk s1 e1 =>
      cases e1 with
      | some e =>
        rw [runItems_append_err _ _ _ _ _ _ _ hpre] at herr
        exact absurd herr (by simp)
      | none =>
        rw [runItems_append_ok _ _ _ _ _ _ hpre] at herr ⊢
        rw [discSteps] at herr ⊢
        cases hd1 : runStep (electraModelNodes config true) ckpt
            ⟨"Discriminator-Dense", [("discriminator_predictions/dense/kernel", none),
              ("discriminator_predictions/dense/bias", none)]⟩ s1 with
        | mk s2 e2 =>
          cases e2 with
          | some e =>
            rw [runItems_cons_err _ _ _ _ _ _ _ hd1] at herr
            exact absurd herr (by simp)
          | none =>
            obtain ⟨nd1, ts1, -, -, -, -, hq1⟩ := runStep_ok _ _ _ _ _ hd1
            rw [runItems_cons_ok _ _ _ _ _ _ hd1] at herr ⊢
            cases hd2 : runStep (electraModelNodes config true) ckpt
                ⟨"Discriminator-Prediction",
                  [("discriminator_predictions/dense_1/kernel", none),
                   ("discriminator_predictions/dense_1/bias", none)]⟩ s2 with
            | mk s3 e3 =>
              cases e3 with
              | some e =>
                rw [runItems_cons_err _ _ _ _ _ _ _ hd2] at herr
                exact absurd herr (by simp)
              | none =>
                obtain ⟨nd2, ts2, -, -, -, -, hq2⟩ := runStep_ok _ _ _ _ _ hd2
                rw [runItems_cons_ok _ _ _ _ _ _ hd2]
                rw [List.all_eq_true]
                intro k hk
                simp only [List.mem_cons, List.not_mem_nil, or_false] at hk
                have hkin : k ∈ (runItems (electraModelNodes config true) ckpt [] s3).1.queried := by
                  rw [show runItems (electraModelNodes config true) ckpt [] s3 = (s3, none)
                    from rfl]
                  rw [hq2, hq1]
                  rcases hk with rfl | rfl | rfl | rfl
                  · simp
                  · simp
                  · simp
                  · simp
                exact List.elem_eq_true_of_mem hkin

/-- Witness config: embedding 1, hidden 2, one position row configured,
no encoder layers. -/
def cfgSliceWitness : ElectraConfig :=
  ⟨1, 1, 1, 2, some 1, 0, 1, 1, "gelu", 0, 0⟩

/-- Witness checkpoint whose stored position table has two rows, one more
than configured. -/
def ckptSliceWitness : Checkpoint := fun k =>
  ([("bert/embeddings/word_embeddings", Tensor.mat 1 [[0]]),
    ("bert/embeddings/token_type_embeddings", Tensor.mat 1 [[0]]),
    ("bert/embeddings/position_embeddings", Tensor.mat 1 [[0], [1]]),
    ("bert/embeddings/LayerNorm/gamma", Tensor.vec [0]),
    ("bert/embeddings/LayerNorm/beta", Tensor.vec [0]),
    ("electra/embeddings_project/kernel", Tensor.vec [0]),
    ("electra/embeddings_project/bias", Tensor.vec [0])]).lookup k

theorem position_embedding_slicing_witness :
    cfgSliceWitness.max_position_embeddings ≤ ([[0], [1]] : List (List Int)).length ∧
    getParam "Embedding-Position"
      (load_model_weights_from_checkpoint (electraModelNodes cfgSliceWitness false)
        cfgSliceWitness ckptSliceWitness false ⟨[], []⟩).1.params =
      some [.mat (cfgSliceWitness.embedding_size.getD cfgSliceWitness.hidden_size)
        (([[0], [1]] : List (List Int)).take cfgSliceWitness.max_position_embeddings)] :=
  (position_embedding_slicing cfgSliceWitness ckptSliceWitness false [] [[0], [1]]
    (by decide)).1 (by decide)

/-- Witness checkpoint for a complete discriminator-model bind. -/
def ckptDiscWitness : Checkpoint := fun k =>
  ([("bert/embeddings/word_embeddings", Tensor.mat 1 [[0]]),
    ("bert/embeddings/token_type_embeddings", Tensor.mat 1 [[0]]),
    ("bert/embeddings/position_embeddings", Tensor.mat 1 [[0]]),
    ("bert/embeddings/LayerNorm/gamma", Tensor.vec [0]),
    ("bert/embeddings/LayerNorm/beta", Tensor.vec [0]),
    ("electra/embeddings_project/kernel", Tensor.vec [0]),
    ("electra/embeddings_project/bias", Tensor.vec [0]),
    ("discriminator_predictions/dense/kernel", Tensor.vec [0]),
    ("discriminator_predictions/dense/bias", Tensor.vec [0]),
    ("discriminator_predictions/dense_1/kernel", Tensor.vec [0]),
    ("discriminator_predictions/dense_1/bias", Tensor.vec [0])]).lookup k

theorem discriminator_round_trip_witness :
    (["discriminator_predictions/dense/kernel",
      "discriminator_predictions/dense/bias",
      "discriminator_predictions/dense_1/kernel",
      "discriminator_predictions/dense_1/bias"].all (fun k =>
      (load_model_weights_from_checkpoint (electraModelNodes cfgSliceWitness true)
        cfgSliceWitness ckptDiscWitness true ⟨[], []⟩).1.queried.contains k) = true) :=
  (discriminator_round_trip cfgSliceWitness ckptDiscWitness []).2.2.2.2.2.1 (by decide)

theorem runSteps_append (g : List LayerNode) (ckpt : Checkpoint)
    (A B : List BindStep) (s : BState) :
    runSteps g ckpt (A ++ B) s =
      match runSteps g ckpt A s with
      | (s1, none) => runSteps g ckpt B s1
      | (s1, some e) => (s1, some e) := by
  induction A generalizing s with
  | nil => simp [runSteps]
  | cons st rest ih =>
    rw [List.cons_append, runSteps, runSteps]
    rcases runStep g ckpt st s with ⟨s1, e⟩
    cases e with
    | none => exact ih s1
    | some e => rfl

theorem runSteps_append_ok (g : List LayerNode) (ckpt : Checkpoint)
    (A B : List BindStep) (s s1 : BState) (h : runSteps g ckpt A s = (s1, none)) :
    runSteps g ckpt (A ++ B) s = runSteps g ckpt B s1 := by
  rw [runSteps_append, h]

/-- A bind call on a node whose existence is confirmed, with its first
missing checkpoint key `k`: the loader's not-found error aborts the step
with that key, and the step assigns nothing. -/
theorem runStep_missing_key (g : List LayerNode) (ckpt : Checkpoint) (st : BindStep)
    (s : BState) (nd : LayerNode) (k : String)
    (hn : findNode g st.layer = some nd)
    (hf : (fetchList ckpt st.fetches).2 = .error (.missingKey k)) :
    runStep g ckpt st s =
      (⟨s.params, s.queried ++ (fetchList ckpt st.fetches).1⟩, some (.missingKey k)) := by
  simp only [runStep, hn, hf]

/-- C8 (amended): if the checkpoint lacks a key required by a node whose
existence in the graph has been confirmed, the Weight Binder aborts the
entire bind with an error identifying the missing key; the parameter
state is exactly the state reached before the failing call, so the node
requiring that key and every node later in the binding order are left
unassigned while nodes bound earlier — including earlier nodes of the
same encoder layer — keep their assigned values. Stated universally for
a failing call at any plain position and at any position inside a
guarded encoder-layer group, and instantiated at the claim's own
example: with a 2-layer graph and `bert/encoder/layer_1/attention/self/query/kernel`
missing (the first key of layer 1's first node) no layer-1 node is
assigned and layer 0 stays bound; with a layer-1 feed-forward key
missing, the already-bound layer-1 attention and attention-norm nodes
keep their values and the feed-forward nodes stay unassigned. -/
theorem missing_key_aborts_at_failing_node :
    (∀ (g : List LayerNode) (ckpt : Checkpoint) (A B : List BindItem) (st : BindStep)
      (s s1 : BState) (nd : LayerNode) (k : String),
      runItems g ckpt A s = (s1, none) →
      findNode g st.layer = some nd →
      (fetchList ckpt st.fetches).2 = .error (.missingKey k) →
      runItems g ckpt (A ++ .step st :: B) s =
        (⟨s1.params, s1.queried ++ (fetchList ckpt st.fetches).1⟩, some (.missingKey k))) ∧
    (∀ (g : List LayerNode) (ckpt : Checkpoint) (A B : List BindItem) (guard : String)
      (C D : List BindStep) (st : BindStep) (s s1 s2 : BState) (gd nd : LayerNode)
      (k : String),
      runItems g ckpt A s = (s1, none) →
      findNode g guard = some gd →
      runSteps g ckpt C s1 = (s2, none) →
      findNode g st.layer = some nd →
      (fetchList ckpt st.fetches).2 = .error (.missingKey k) →
      runItems g ckpt (A ++ .guarded guard (C ++ st :: D) :: B) s =
        (⟨s2.params, s2.queried ++ (fetchList ckpt st.fetches).1⟩, some (.missingKey k))) ∧
    ((build_electra_model cfgTwoLayer ckptMissingQuery none false).bind.2 =
      some (.missingKey "bert/encoder/layer_1/attention/self/query/kernel") ∧
     getParam "Encoder-1-MultiHeadSelfAttention"
       (build_electra_model cfgTwoLayer ckptMissingQuery none false).bind.1.params = none ∧
     getParam "Encoder-1-MultiHeadSelfAttention-Norm"
       (build_electra_model cfgTwoLayer ckptMissingQuery none false).bind.1.params = none ∧
     getParam "Encoder-1-FeedForward"
       (build_electra_model cfgTwoLayer ckptMissingQuery none false).bind.1.params = none ∧
     getParam "Encoder-1-FeedForward-Norm"
       (build_electra_model cfgTwoLayer ckptMissingQuery none false).bind.1.params = none ∧
     getParam "Encoder-0-MultiHeadSelfAttention"
       (build_electra_model cfgTwoLayer ckptMissingQuery none false).bind.1.params ≠ none) ∧
    ((build_electra_model cfgTwoLayer ckptMissingFF none false).bind.2 =
      some (.missingKey "bert/encoder/layer_1/intermediate/dense/kernel") ∧
     getParam "Encoder-1-MultiHeadSelfAttention-Norm"
       (build_electra_model cfgTwoLayer ckptMissingFF none false).bind.1.params ≠ none ∧
     getParam "Encoder-1-FeedForward"
       (build_electra_model cfgTwoLayer ckptMissingFF none false).bind.1.params = none ∧
     getParam "Encoder-1-FeedForward-Norm"
       (build_electra_model cfgTwoLayer ckptMissingFF none false).bind.1.params = none) := by
  refine ⟨?_, ?_, by decide, by decide⟩
  · intro g ckpt A B st s s1 nd k hA hn hf
    rw [runItems_append_ok g ckpt A _ s s1 hA]
    exact runItems_cons_err _ _ _ _ _ _ _ (runStep_missing_key g ckpt st s1 nd k hn hf)
  · intro g ckpt A B guard C D st s s1 s2 gd nd k hA hg hC hn hf
    rw [runItems_append_ok g ckpt A _ s s1 hA]
    have hsteps : runSteps g ckpt (C ++ st :: D) s1 =
        (⟨s2.params, s2.queried ++ (fetchList ckpt st.fetches).1⟩, some (.missingKey k)) := by
      rw [runSteps_append_ok g ckpt C _ s1 s2 hC, runSteps,
        runStep_missing_key g ckpt st s2 nd k hn hf]
    rw [runItems, hg, hsteps]

theorem missing_key_aborts_at_failing_node_witness :
    runItems [⟨"N", .dense, [], [none, none]⟩] (fun _ => none)
      ([] ++ .step ⟨"N", [("k", none)]⟩ :: []) ⟨[], []⟩ =
      (⟨[], ["k"]⟩, some (.missingKey "k")) :=
  missing_key_aborts_at_failing_node.1 [⟨"N", .dense, [], [none, none]⟩] (fun _ => none)
    [] [] ⟨"N", [("k", none)]⟩ ⟨[], []⟩ ⟨[], []⟩ ⟨"N", .dense, [], [none, none]⟩ "k"
    rfl (by decide) rfl
